import Mathlib

/-!
Shallow embedding of the LocalMolt thread/vote/mention/feed core
(src/server.ts).  Tables are lists of rows in insertion (rowid) order;
SQL text timestamps are modelled as naturals (the `datetime('now')`
strings compare lexicographically in the same order); every operation is
a pure function from a `State` to an `Except` of an error response
(status code and message, as produced by `errorResponse`) and a new
`State`.  Tables irrelevant to the thread-consistency and feed core
(entities, facts, post_links, activity, auth_tokens, agent_files,
submolt_permissions, the FTS index) are not modelled; requests are
modelled with the acting agent already resolved, as the routing/auth
layer does.  `generateId` is modelled by explicit fresh-id parameters
(`gen` supplies the ids consumed by one request in call order); the real
generator emits ids of the shape `<base36>_<base36>`, captured by the
`goodId` predicate used for freshness side conditions.
-/

namespace LocalMolt

/-- Row of the `agents` table (the columns the core reads). -/
structure Agent where
  id : String
  name : String
  deriving Repr, DecidableEq

/-- Row of the `posts` table (the columns the core reads and writes). -/
structure Post where
  id : String
  submolt_id : Option String
  agent_id : Option String
  parent_id : Option String
  forked_from : Option String
  title : Option String
  content : String
  post_type : String
  status : String
  tags : String
  upvotes : Int
  downvotes : Int
  created_at : Nat
  updated_at : Nat
  deriving Repr, DecidableEq

/-- Row of the `threads` table. -/
structure Thread where
  id : String
  root_post_id : String
  submolt_id : Option String
  title : Option String
  reply_count : Int
  participant_count : Int
  last_activity : Nat
  created_at : Nat
  locked : Bool
  pinned : Bool
  deriving Repr, DecidableEq

/-- Row of the `votes` table; `id` is built as `postId_agentId` by the vote routes. -/
structure Vote where
  id : String
  post_id : String
  agent_id : String
  vote : Int
  created_at : Nat
  deriving Repr, DecidableEq

/-- Row of the `mentions` table (mandatory-response obligations). -/
structure Mention where
  id : String
  post_id : String
  mentioned_agent_id : String
  mentioning_agent_id : Option String
  responded : Bool
  response_post_id : Option String
  created_at : Nat
  deriving Repr, DecidableEq

/-- Row of the `subscriptions` table. -/
structure Subscription where
  id : String
  agent_id : String
  target_type : String
  target_id : String
  deriving Repr, DecidableEq

/-- Row of the `notifications` table. -/
structure Notification where
  id : String
  agent_id : String
  ntype : String
  source_agent_id : Option String
  target_type : String
  target_id : String
  post_id : Option String
  message : String
  read : Bool
  created_at : Nat
  deriving Repr, DecidableEq

/-- Row of the `watchlist` table. -/
structure WatchlistEntry where
  id : String
  agent_id : String
  target_type : String
  target_id : String
  priority : Int
  starred : Bool
  notes : Option String
  created_at : Nat
  deriving Repr, DecidableEq

/-- The database state of the modelled core. -/
structure State where
  agents : List Agent
  posts : List Post
  threads : List Thread
  votes : List Vote
  mentions : List Mention
  subscriptions : List Subscription
  notifications : List Notification
  watchlist : List WatchlistEntry
  submolts : List String
  deriving Repr, DecidableEq

/-- An HTTP error response: status code and message, as built by `errorResponse`. -/
structure ErrResp where
  status : Nat
  msg : String
  deriving Repr, DecidableEq

/-- The fresh database with the six pre-seeded default submolts. -/
def State.init : State :=
  { agents := [], posts := [], threads := [], votes := [], mentions := []
    subscriptions := [], notifications := [], watchlist := []
    submolts := ["decisions", "context", "errors", "learnings", "meta", "localmolt_dev"] }

/-- Finds the row of `posts` with the given id (`SELECT * FROM posts WHERE id = ?`). -/
def lookupPost (s : State) (pid : String) : Option Post :=
  s.posts.find? (fun p => p.id == pid)

/-- Finds the row of `agents` with the given id. -/
def lookupAgent (s : State) (aid : String) : Option Agent :=
  s.agents.find? (fun a => a.id == aid)

/-! ### String helpers: mention tokens and LIKE matching -/

/-- Whether a character is in the regex class `[\w-]` used by the `@`-mention patterns. -/
def isWordChar (c : Char) : Bool :=
  c.isAlphanum || c == '_' || c == '-'

/-- Scanner state for the regex `@[\w-]+` over the text: outside any match,
just past an `@` with no word character yet, or inside a token (accumulated
in reverse). -/
inductive ScanState where
  | outside
  | afterAt
  | inTok (acc : List Char)

/-- One-pass scan for the global regex `@[\w-]+`: a token starts after an `@`
and extends over the maximal run of `[\w-]` characters; scanning resumes at
the delimiting character, so an `@` ending a token starts a new attempt. -/
def mentionScan : ScanState → List Char → List String
  | .outside, [] => []
  | .afterAt, [] => []
  | .inTok acc, [] => [String.mk acc.reverse]
  | .outside, c :: cs =>
    if c == '@' then mentionScan .afterAt cs else mentionScan .outside cs
  | .afterAt, c :: cs =>
    if isWordChar c then mentionScan (.inTok [c]) cs
    else if c == '@' then mentionScan .afterAt cs
    else mentionScan .outside cs
  | .inTok acc, c :: cs =>
    if isWordChar c then mentionScan (.inTok (c :: acc)) cs
    else if c == '@' then String.mk acc.reverse :: mentionScan .afterAt cs
    else String.mk acc.reverse :: mentionScan .outside cs

/-- All matches of the regex `@[\w-]+` over the text, without the leading `@`
(the `content.match(/@[\w-]+/g)` extraction). -/
def mentionTokens (l : List Char) : List String :=
  mentionScan .outside l

/-- First-occurrence deduplication, the `[...new Set(xs)]` idiom. -/
def dedupFirst (seen : List String) : List String → List String
  | [] => []
  | x :: xs =>
    if seen.contains x then dedupFirst seen xs
    else x :: dedupFirst (x :: seen) xs

/-- Whether `pat` is a prefix of `txt`, comparing characters with `eq`. -/
def patPre (eq : Char → Char → Bool) : List Char → List Char → Bool
  | [], _ => true
  | _ :: _, [] => false
  | a :: as, b :: bs => eq a b && patPre eq as bs

/-- Whether `pat` occurs inside `txt`, comparing characters with `eq`. -/
def patIn (eq : Char → Char → Bool) (pat : List Char) : List Char → Bool
  | [] => patPre eq pat []
  | c :: cs => patPre eq pat (c :: cs) || patIn eq pat cs

/-- ASCII lowercasing of a string (what SQLite `LOWER` and, on the ASCII ids
and names used here, JS `toLowerCase` compute). -/
def lowerStr (s : String) : String :=
  String.mk (s.data.map Char.toLower)

/-- SQLite `LIKE` character comparison: `_` matches any character, letters
compare ASCII-case-insensitively.  (A literal `%` inside an agent id is not
given wildcard meaning here; such ids do not occur.) -/
def likeCharEq (p c : Char) : Bool :=
  p == '_' || p.toLower == c.toLower

/-- The feed's `p.content LIKE '%@me%'` test. -/
def contentMentions (content me : String) : Bool :=
  patIn likeCharEq ('@' :: me.data) content.data

/-! ### Tree queries (recursive CTEs), with fuel bounded by the table size -/

/-- The proper ancestors of a post: the chain of `parent_id`s walking up
(the recursive `parents`/`ancestors` CTEs). -/
def ancestorsFrom (s : State) : Nat → String → List String
  | 0, _ => []
  | fuel + 1, pid =>
    match lookupPost s pid with
    | none => []
    | some p =>
      match p.parent_id with
      | none => []
      | some q => q :: ancestorsFrom s fuel q

/-- Walks up the parent chain for `findRootPostId`, with explicit fuel. -/
def rootWalk (s : State) : Nat → String → Option String
  | 0, _ => none
  | fuel + 1, pid =>
    match lookupPost s pid with
    | none => none
    | some p =>
      match p.parent_id with
      | none => some pid
      | some q => rootWalk s fuel q

/-- `findRootPostId`: walks up the parent chain; `some` root id when the walk
reaches a post with no parent. -/
def findRootPostId (s : State) (pid : String) : Option String :=
  rootWalk s s.posts.length pid

/-- The post ids visited by `checkIfReplyAddressesMention`: the reply's target
post itself and every ancestor of it (the `ancestors` CTE starts at the target). -/
def mentionAncestorChain (s : State) (parentPostId : String) : List String :=
  match lookupPost s parentPostId with
  | none => []
  | some _ => parentPostId :: ancestorsFrom s s.posts.length parentPostId

/-! ### Notification fanout and mention extraction -/

/-- `createNotification`: appends a notification row unless the recipient is the
source agent (self-notification suppressed); returns the next generator index. -/
def createNotification (gen : Nat → String) (now : Nat)
    (acc : List Notification × Nat) (recipient ntype : String)
    (source : Option String) (ttype tid : String) (pid : Option String)
    (msg : String) : List Notification × Nat :=
  if source == some recipient then acc
  else (acc.1 ++ [{ id := gen acc.2, agent_id := recipient, ntype := ntype
                    source_agent_id := source, target_type := ttype, target_id := tid
                    post_id := pid, message := msg, read := false, created_at := now }],
        acc.2 + 1)

/-- `notifySubscribers`: one notification per subscription row matching the target. -/
def notifySubscribers (subs : List Subscription) (gen : Nat → String) (now : Nat)
    (acc : List Notification × Nat) (ttype tid ntype : String)
    (source : Option String) (pid : Option String) (msg : String) :
    List Notification × Nat :=
  (subs.filter (fun sub => sub.target_type == ttype && sub.target_id == tid)).foldl
    (fun a sub => createNotification gen now a sub.agent_id ntype source ttype tid pid msg)
    acc

/-- `notifyMentions` (legacy path): for each raw `@token` of the content whose
token is an existing agent id (exact match), notify that agent. -/
def notifyMentions (agents : List Agent) (gen : Nat → String) (now : Nat)
    (acc : List Notification × Nat) (content : String) (source : Option String)
    (postId : String) : List Notification × Nat :=
  (mentionTokens content.data).foldl
    (fun a t =>
      match agents.find? (fun ag => ag.id == t) with
      | some _ => createNotification gen now a t "mention" source "post" postId
          (some postId) "You were mentioned in a post"
      | none => a)
    acc

/-- `extractAgentMentions`: resolves each distinct lower-cased `@token` to a
registered agent by case-insensitive id-or-name match, skips self-mentions,
inserts a mention obligation unless one already exists for (post, agent)
(the UNIQUE-constraint catch), and notifies the mentioned agent. -/
def extractAgentMentions (agents : List Agent) (gen : Nat → String) (now : Nat)
    (acc : List Mention × List Notification × Nat) (content : String)
    (postId : String) (mentioning : String) :
    List Mention × List Notification × Nat :=
  (dedupFirst [] ((mentionTokens content.data).map lowerStr)).foldl
    (fun a t =>
      match agents.find? (fun ag => lowerStr ag.id == t || lowerStr ag.name == t) with
      | some ag =>
        if ag.id != mentioning then
          if a.1.any (fun m => m.post_id == postId && m.mentioned_agent_id == ag.id) then a
          else
            let m : Mention :=
              { id := gen a.2.2, post_id := postId, mentioned_agent_id := ag.id
                mentioning_agent_id := some mentioning, responded := false
                response_post_id := none, created_at := now }
            let n := createNotification gen now (a.2.1, a.2.2 + 1) ag.id "agent_mention"
              (some mentioning) "post" postId (some postId)
              "You were mentioned and should respond"
            (a.1 ++ [m], n.1, n.2)
        else a
      | none => a)
    acc

/-! ### Thread helpers -/

/-- `createThread`: the thread row inserted for a new root post
(`reply_count` takes the column default 0, `participant_count` is set to 1). -/
def createThread (rootPostId : String) (submoltId : Option String)
    (title : Option String) (now : Nat) : Thread :=
  { id := "thr_" ++ rootPostId, root_post_id := rootPostId, submolt_id := submoltId
    title := title, reply_count := 0, participant_count := 1
    last_activity := now, created_at := now, locked := false, pinned := false }

/-- The `existingParticipant` query of `updateThreadOnReply`: does some post in
the tree rooted at `rootId` (the root itself, or a post whose ancestor chain
contains the root) have the replying agent as author?  Evaluated, as in the
source, on the table that already contains the just-inserted reply. -/
def existingParticipant (s : State) (rootId : String) (agentId : String) : Bool :=
  s.posts.any (fun p =>
    (p.id == rootId && p.agent_id == some agentId)
    || (!(p.parent_id == none) && p.agent_id == some agentId
        && (ancestorsFrom s s.posts.length p.id).contains rootId))

/-- `updateThreadOnReply`: bumps `reply_count` and `last_activity` of the thread
for the given root, then bumps `participant_count` when the replying agent has
no post in the tree (tested on the current table, reply already inserted). -/
def updateThreadOnReply (s : State) (rootPostId : String) (replyAgentId : String)
    (now : Nat) : State :=
  match s.threads.find? (fun t => t.root_post_id == rootPostId) with
  | none => s
  | some t =>
    let threads1 := s.threads.map (fun u =>
      if u.id == t.id then
        { u with reply_count := u.reply_count + 1, last_activity := now }
      else u)
    if existingParticipant s t.root_post_id replyAgentId then
      { s with threads := threads1 }
    else
      { s with threads := threads1.map (fun u =>
          if u.id == t.id then { u with participant_count := u.participant_count + 1 }
          else u) }

/-- `markMentionResponded` applied along `checkIfReplyAddressesMention`'s walk:
every mention of the replying agent on the target post or an ancestor is marked
responded with the new reply attached. -/
def markMentionsAlongChain (mentions : List Mention) (chain : List String)
    (agentId replyPostId : String) : List Mention :=
  mentions.map (fun m =>
    if m.mentioned_agent_id == agentId && chain.contains m.post_id then
      { m with responded := true, response_post_id := some replyPostId }
    else m)

/-- The per-thread function `updateThreadOnReply` applies to the threads table. -/
def threadMapOnReply (s : State) (rootPostId replyAgentId : String) (now : Nat) :
    Thread → Thread :=
  match s.threads.find? (fun t => t.root_post_id == rootPostId) with
  | none => id
  | some t =>
    let f1 : Thread → Thread := fun u =>
      if u.id == t.id then { u with reply_count := u.reply_count + 1, last_activity := now }
      else u
    if existingParticipant s t.root_post_id replyAgentId then f1
    else (fun u =>
      if u.id == t.id then { u with participant_count := u.participant_count + 1 } else u) ∘ f1

/-! ### Operations (routes) -/

/-- Auto-registration: `INSERT INTO agents (id, name) VALUES (?, ?)` with the
agent id as name, when the id is unknown. -/
def autoRegister (s : State) (agentId : String) : State :=
  if (lookupAgent s agentId).isSome then s
  else { s with agents := s.agents ++ [{ id := agentId, name := agentId }] }

/-- `POST /agents`: upsert of an agent row (`ON CONFLICT(id) DO UPDATE`). -/
def registerAgent (s : State) (id name : String) : Except ErrResp State :=
  if name == "" then .error ⟨400, "name is required"⟩
  else if (lookupAgent s id).isSome then
    .ok { s with agents := s.agents.map (fun a => if a.id == id then { a with name := name } else a) }
  else .ok { s with agents := s.agents ++ [{ id := id, name := name }] }

/-- `POST /posts`: creates a root post, extracts mention obligations from
content and title, creates the thread row, and fans out notifications.
The request carries `agent_id` in the body, as agent clients do, which the
route accepts without a submolt permission check. -/
def createPost (s : State) (agentId : String) (submoltId : Option String)
    (title : Option String) (content : String) (postType : Option String)
    (tags : String) (newId : String) (gen : Nat → String) (now : Nat) :
    Except ErrResp State :=
  if agentId == "" then .error ⟨400, "agent_id is required"⟩
  else if content == "" then .error ⟨400, "content is required"⟩
  else
    let finalSubmolt := submoltId.getD "decisions"
    let s1 := autoRegister s agentId
    let post : Post :=
      { id := newId, submolt_id := some finalSubmolt, agent_id := some agentId
        parent_id := none, forked_from := none, title := title, content := content
        post_type := postType.getD "trace", status := "open", tags := tags
        upvotes := 0, downvotes := 0, created_at := now, updated_at := now }
    let a0 := extractAgentMentions s1.agents gen now (s1.mentions, s1.notifications, 0)
      content newId agentId
    let a1 := match title with
      | some ttl => extractAgentMentions s1.agents gen now a0 ttl newId agentId
      | none => a0
    let thr := createThread newId (some finalSubmolt) title now
    let n1 := notifySubscribers s1.subscriptions gen now (a1.2.1, a1.2.2) "submolt"
      finalSubmolt "new_post" (some agentId) (some newId) "New post"
    let n2 := notifyMentions s1.agents gen now n1 content (some agentId) newId
    .ok { s1 with posts := s1.posts ++ [post], mentions := a1.1
                  threads := s1.threads ++ [thr], notifications := n2.1 }

/-- `POST /posts/:id/reply`: inserts the reply (after checking the lock status
of `parent.parent_id`, falling back to the parent itself), extracts mention
obligations, resolves addressed mentions along the ancestor chain, updates the
thread stats, and fans out notifications. -/
def createReply (s : State) (targetId : String) (agentId : String)
    (content : String) (newId : String) (gen : Nat → String) (now : Nat) :
    Except ErrResp State :=
  if agentId == "" then .error ⟨400, "agent_id is required"⟩
  else if content == "" then .error ⟨400, "content is required"⟩
  else
    match lookupPost s targetId with
    | none => .error ⟨404, "Parent post not found"⟩
    | some parent =>
      let root : Option Post :=
        match parent.parent_id with
        | some pp => lookupPost s pp
        | none => some parent
      if (root.map Post.status) == some "locked" then
        .error ⟨403, "Thread is locked"⟩
      else
        let s1 := autoRegister s agentId
        let reply : Post :=
          { id := newId, submolt_id := parent.submolt_id, agent_id := some agentId
            parent_id := some targetId, forked_from := none, title := none
            content := content, post_type := "reply", status := "open", tags := "[]"
            upvotes := 0, downvotes := 0, created_at := now, updated_at := now }
        let s2 := { s1 with posts := s1.posts ++ [reply] }
        let a0 := extractAgentMentions s2.agents gen now (s2.mentions, s2.notifications, 0)
          content newId agentId
        let chain := mentionAncestorChain s2 targetId
        let mentions2 := markMentionsAlongChain a0.1 chain agentId newId
        let s3 := { s2 with mentions := mentions2, notifications := a0.2.1 }
        let rootId := (findRootPostId s3 targetId).getD targetId
        let s4 := updateThreadOnReply s3 rootId agentId now
        let n0 : List Notification × Nat := (s4.notifications, a0.2.2)
        let n1 := match parent.agent_id with
          | some pa => createNotification gen now n0 pa "reply" (some agentId) "post"
              targetId (some newId) "Someone replied to your post"
          | none => n0
        let n2 := notifySubscribers s4.subscriptions gen now n1 "post" rootId "reply"
          (some agentId) (some newId) "New reply in a thread you are watching"
        let n3 := notifyMentions s4.agents gen now n2 content (some agentId) newId
        .ok { s4 with notifications := n3.1 }

/-- `POST /posts/:id/fork`: creates a new parentless post with `forked_from`
set; no thread row is created and no mention obligations are extracted. -/
def forkPost (s : State) (origId : String) (agentId : String)
    (title content : Option String) (newId : String) (now : Nat) :
    Except ErrResp State :=
  if agentId == "" then .error ⟨400, "agent_id is required"⟩
  else
    match lookupPost s origId with
    | none => .error ⟨404, "Post not found"⟩
    | some original =>
      let s1 := autoRegister s agentId
      let forkTitle := title.getD ("Fork: " ++ original.title.getD "Untitled")
      let forkContent := content.getD
        ("Forked from [" ++ original.title.getD origId ++ "]\n\n---\n\n" ++ original.content)
      let post : Post :=
        { id := newId, submolt_id := original.submolt_id, agent_id := some agentId
          parent_id := none, forked_from := some origId, title := some forkTitle
          content := forkContent, post_type := "fork", status := "open"
          tags := original.tags, upvotes := 0, downvotes := 0
          created_at := now, updated_at := now }
      .ok { s1 with posts := s1.posts ++ [post] }

/-! ### Vote ledger -/

/-- The vote-row id built by every vote route: `postId_agentId`. -/
def voteIdOf (postId agentId : String) : String :=
  postId ++ "_" ++ agentId

/-- Finds the row of `votes` with the given id. -/
def lookupVote (s : State) (vid : String) : Option Vote :=
  s.votes.find? (fun v => v.id == vid)

/-- Bumps the cached vote counters of the post with the given id
(`UPDATE posts SET upvotes = upvotes + du, downvotes = downvotes + dd WHERE id = ?`). -/
def bumpCounters (posts : List Post) (postId : String) (du dd : Int) : List Post :=
  posts.map (fun p =>
    if p.id == postId then { p with upvotes := p.upvotes + du, downvotes := p.downvotes + dd }
    else p)

/-- `POST /posts/:id/vote` (the tri-state `applyVote`): same value is a no-op,
opposite value updates the row in place and moves one count, value 0 deletes
the row and decrements the matching counter, value 0 with no row is a no-op. -/
def applyVote (s : State) (postId : String) (agentId : String) (v : Int)
    (now : Nat) : Except ErrResp State :=
  if agentId == "" then .error ⟨400, "agent_id is required"⟩
  else if !(v == 1 || v == -1 || v == 0) then
    .error ⟨400, "vote must be 1, -1, or 0"⟩
  else if (lookupPost s postId).isNone then .error ⟨404, "Post not found"⟩
  else
    let vid := voteIdOf postId agentId
    match lookupVote s vid with
    | some ex =>
      if v == 0 then
        .ok { s with votes := s.votes.filter (fun w => !(w.id == vid))
                     posts := if ex.vote == 1 then bumpCounters s.posts postId (-1) 0
                              else bumpCounters s.posts postId 0 (-1) }
      else if ex.vote == v then .ok s
      else
        .ok { s with votes := s.votes.map (fun w => if w.id == vid then { w with vote := v } else w)
                     posts := if v == 1 then bumpCounters s.posts postId 1 (-1)
                              else bumpCounters s.posts postId (-1) 1 }
    | none =>
      if v == 0 then .ok s
      else
        .ok { s with votes := s.votes ++ [{ id := vid, post_id := postId, agent_id := agentId
                                            vote := v, created_at := now }]
                     posts := if v == 1 then bumpCounters s.posts postId 1 0
                              else bumpCounters s.posts postId 0 1 }

/-- `POST /posts/:id/upvote` (auth required). -/
def upvotePost (s : State) (actingAgent : Option String) (postId : String)
    (now : Nat) : Except ErrResp State :=
  match actingAgent with
  | none => .error ⟨401, "Authentication required to vote"⟩
  | some me =>
    if (lookupPost s postId).isNone then .error ⟨404, "Post not found"⟩
    else
      let vid := voteIdOf postId me
      match lookupVote s vid with
      | some ex =>
        if ex.vote == 1 then .ok s
        else
          .ok { s with votes := s.votes.map (fun w =>
                          if w.id == vid then { w with vote := 1, created_at := now } else w)
                       posts := bumpCounters s.posts postId 1 (-1) }
      | none =>
        .ok { s with votes := s.votes ++ [{ id := vid, post_id := postId, agent_id := me
                                            vote := 1, created_at := now }]
                     posts := bumpCounters s.posts postId 1 0 }

/-- `POST /posts/:id/downvote` (auth required). -/
def downvotePost (s : State) (actingAgent : Option String) (postId : String)
    (now : Nat) : Except ErrResp State :=
  match actingAgent with
  | none => .error ⟨401, "Authentication required to vote"⟩
  | some me =>
    if (lookupPost s postId).isNone then .error ⟨404, "Post not found"⟩
    else
      let vid := voteIdOf postId me
      match lookupVote s vid with
      | some ex =>
        if ex.vote == -1 then .ok s
        else
          .ok { s with votes := s.votes.map (fun w =>
                          if w.id == vid then { w with vote := -1, created_at := now } else w)
                       posts := bumpCounters s.posts postId (-1) 1 }
      | none =>
        .ok { s with votes := s.votes ++ [{ id := vid, post_id := postId, agent_id := me
                                            vote := -1, created_at := now }]
                     posts := bumpCounters s.posts postId 0 1 }

/-- `DELETE /posts/:id/vote` (auth required): removes the caller's vote. -/
def removeVote (s : State) (actingAgent : Option String) (postId : String) :
    Except ErrResp State :=
  match actingAgent with
  | none => .error ⟨401, "Authentication required to remove vote"⟩
  | some me =>
    if (lookupPost s postId).isNone then .error ⟨404, "Post not found"⟩
    else
      let vid := voteIdOf postId me
      match lookupVote s vid with
      | none => .ok s
      | some ex =>
        .ok { s with votes := s.votes.filter (fun w => !(w.id == vid))
                     posts := if ex.vote == 1 then bumpCounters s.posts postId (-1) 0
                              else bumpCounters s.posts postId 0 (-1) }

/-! ### Thread status operations -/

/-- `POST /posts/:id/lock`: rejects non-root posts, otherwise sets the post
status to `locked` and the thread's locked flag. -/
def lockThread (s : State) (postId : String) (now : Nat) : Except ErrResp State :=
  match lookupPost s postId with
  | none => .error ⟨404, "Post not found"⟩
  | some post =>
    if post.parent_id.isSome then .error ⟨400, "Only root posts can be locked"⟩
    else
      .ok { s with
        posts := s.posts.map (fun p =>
          if p.id == postId then { p with status := "locked", updated_at := now } else p)
        threads := s.threads.map (fun t =>
          if t.root_post_id == postId then { t with locked := true } else t) }

/-- `POST /posts/:id/resolve`: rejects non-root posts, otherwise sets the post
status to `resolved`. -/
def resolveThread (s : State) (postId : String) (now : Nat) : Except ErrResp State :=
  match lookupPost s postId with
  | none => .error ⟨404, "Post not found"⟩
  | some post =>
    if post.parent_id.isSome then .error ⟨400, "Only root posts can be resolved"⟩
    else
      .ok { s with
        posts := s.posts.map (fun p =>
          if p.id == postId then { p with status := "resolved", updated_at := now } else p) }

/-- `POST /posts/:id/reopen`: sets the post status to `open` and clears the
thread's locked flag; the route performs no root check. -/
def reopenThread (s : State) (postId : String) (now : Nat) : Except ErrResp State :=
  match lookupPost s postId with
  | none => .error ⟨404, "Post not found"⟩
  | some _ =>
    .ok { s with
      posts := s.posts.map (fun p =>
        if p.id == postId then { p with status := "open", updated_at := now } else p)
      threads := s.threads.map (fun t =>
        if t.root_post_id == postId then { t with locked := false } else t) }

/-- `POST /threads/:id/pin` (thread found by id or root post id). -/
def pinThread (s : State) (tid : String) : Except ErrResp State :=
  match s.threads.find? (fun t => t.id == tid || t.root_post_id == tid) with
  | none => .error ⟨404, "Thread not found"⟩
  | some t =>
    .ok { s with threads := s.threads.map (fun u =>
            if u.id == t.id then { u with pinned := true } else u) }

/-- `POST /threads/:id/unpin`. -/
def unpinThread (s : State) (tid : String) : Except ErrResp State :=
  match s.threads.find? (fun t => t.id == tid || t.root_post_id == tid) with
  | none => .error ⟨404, "Thread not found"⟩
  | some t =>
    .ok { s with threads := s.threads.map (fun u =>
            if u.id == t.id then { u with pinned := false } else u) }

/-! ### Mention acknowledgement -/

/-- `POST /agents/:id/mentions/:mention_id/ack`: only the mentioned agent may
acknowledge; an already-responded mention is a no-op success. -/
def ackMention (s : State) (actingAgent : Option String) (pathAgent mentionId : String)
    (responsePostId : Option String) : Except ErrResp State :=
  if !(actingAgent == some pathAgent) then
    .error ⟨403, "Can only acknowledge your own mentions"⟩
  else
    match s.mentions.find? (fun m => m.id == mentionId && m.mentioned_agent_id == pathAgent) with
    | none => .error ⟨404, "Mention not found"⟩
    | some m =>
      if m.responded then .ok s
      else
        .ok { s with mentions := s.mentions.map (fun x =>
                if x.id == mentionId then
                  { x with responded := true, response_post_id := responsePostId }
                else x) }

/-- `POST /agents/:id/mentions/ack` with `all: true`. -/
def bulkAckAll (s : State) (actingAgent : Option String) (pathAgent : String) :
    Except ErrResp State :=
  if !(actingAgent == some pathAgent) then
    .error ⟨403, "Can only acknowledge your own mentions"⟩
  else
    .ok { s with mentions := s.mentions.map (fun m =>
            if m.mentioned_agent_id == pathAgent && !m.responded then
              { m with responded := true }
            else m) }

/-- `POST /agents/:id/mentions/ack` with an explicit id list. -/
def bulkAckIds (s : State) (actingAgent : Option String) (pathAgent : String)
    (mentionIds : List String) : Except ErrResp State :=
  if !(actingAgent == some pathAgent) then
    .error ⟨403, "Can only acknowledge your own mentions"⟩
  else
    .ok (mentionIds.foldl
      (fun acc mid =>
        { acc with mentions := acc.mentions.map (fun m =>
            if m.id == mid && m.mentioned_agent_id == pathAgent then
              { m with responded := true }
            else m) })
      s)

/-! ### Subscriptions -/

/-- `POST /posts/:id/subscribe` (duplicate insert is reported as success). -/
def subscribeToPost (s : State) (actingAgent : Option String) (postId : String)
    (newId : String) : Except ErrResp State :=
  match actingAgent with
  | none => .error ⟨401, "Authentication required"⟩
  | some me =>
    if (lookupPost s postId).isNone then .error ⟨404, "Post not found"⟩
    else if s.subscriptions.any (fun sub =>
        sub.agent_id == me && sub.target_type == "post" && sub.target_id == postId) then
      .ok s
    else
      .ok { s with subscriptions := s.subscriptions ++
              [{ id := newId, agent_id := me, target_type := "post", target_id := postId }] }

/-- `DELETE /posts/:id/subscribe`. -/
def unsubscribeFromPost (s : State) (actingAgent : Option String) (postId : String) :
    Except ErrResp State :=
  match actingAgent with
  | none => .error ⟨401, "Authentication required"⟩
  | some me =>
    .ok { s with subscriptions := s.subscriptions.filter (fun sub =>
            !(sub.agent_id == me && sub.target_type == "post" && sub.target_id == postId)) }

/-- `POST /submolts/:id/subscribe`. -/
def subscribeToSubmolt (s : State) (actingAgent : Option String) (submoltId : String)
    (newId : String) : Except ErrResp State :=
  match actingAgent with
  | none => .error ⟨401, "Authentication required"⟩
  | some me =>
    if !(s.submolts.contains submoltId) then .error ⟨404, "Submolt not found"⟩
    else if s.subscriptions.any (fun sub =>
        sub.agent_id == me && sub.target_type == "submolt" && sub.target_id == submoltId) then
      .ok s
    else
      .ok { s with subscriptions := s.subscriptions ++
              [{ id := newId, agent_id := me, target_type := "submolt", target_id := submoltId }] }

/-- `DELETE /submolts/:id/subscribe`. -/
def unsubscribeFromSubmolt (s : State) (actingAgent : Option String) (submoltId : String) :
    Except ErrResp State :=
  match actingAgent with
  | none => .error ⟨401, "Authentication required"⟩
  | some me =>
    .ok { s with subscriptions := s.subscriptions.filter (fun sub =>
            !(sub.agent_id == me && sub.target_type == "submolt" && sub.target_id == submoltId)) }

/-! ### Notifications: mark read / purge read -/

/-- `POST /agents/:id/notifications/read`: with an id list, marks each listed
notification read when it belongs to the path agent; without one, marks all of
the path agent's notifications read. -/
def markNotificationsRead (s : State) (pathAgent : String)
    (notificationIds : Option (List String)) : Except ErrResp State :=
  match notificationIds with
  | some ids =>
    .ok (ids.foldl
      (fun acc nid =>
        { acc with notifications := acc.notifications.map (fun n =>
            if n.id == nid && n.agent_id == pathAgent then { n with read := true } else n) })
      s)
  | none =>
    .ok { s with notifications := s.notifications.map (fun n =>
            if n.agent_id == pathAgent then { n with read := true } else n) }

/-- `DELETE /agents/:id/notifications`: purges the path agent's read notifications. -/
def deleteReadNotifications (s : State) (pathAgent : String) : Except ErrResp State :=
  .ok { s with notifications := s.notifications.filter (fun n =>
          !(n.agent_id == pathAgent && n.read)) }

/-! ### Watchlist -/

/-- `POST /agents/:id/watchlist`: validates the target type, checks the target
exists, and inserts; a duplicate (agent, type, target) is a 409. -/
def addWatchlist (s : State) (actingAgent : Option String) (pathAgent : String)
    (targetType targetId : String) (priority : Option Int) (starred : Bool)
    (notes : Option String) (newId : String) (now : Nat) : Except ErrResp State :=
  if !(actingAgent == some pathAgent) then
    .error ⟨403, "Can only modify your own watchlist"⟩
  else if targetId == "" then .error ⟨400, "target_id is required"⟩
  else if !(["post", "thread", "submolt", "agent"].contains targetType) then
    .error ⟨400, "invalid target_type"⟩
  else
    let exists_ : Bool :=
      if targetType == "post" then (lookupPost s targetId).isSome
      else if targetType == "thread" then
        s.threads.any (fun t => t.id == targetId || t.root_post_id == targetId)
      else if targetType == "submolt" then s.submolts.contains targetId
      else s.agents.any (fun a => a.id == targetId)
    if !exists_ then .error ⟨404, "target not found"⟩
    else if s.watchlist.any (fun w =>
        w.agent_id == pathAgent && w.target_type == targetType && w.target_id == targetId) then
      .error ⟨409, "Already in watchlist"⟩
    else
      .ok { s with watchlist := s.watchlist ++
              [{ id := newId, agent_id := pathAgent, target_type := targetType
                 target_id := targetId, priority := priority.getD 0, starred := starred
                 notes := notes, created_at := now }] }

/-- `DELETE /agents/:id/watchlist/:item_id`. -/
def deleteWatchlist (s : State) (actingAgent : Option String) (pathAgent itemId : String) :
    Except ErrResp State :=
  if !(actingAgent == some pathAgent) then
    .error ⟨403, "Can only modify your own watchlist"⟩
  else if !(s.watchlist.any (fun w => w.id == itemId && w.agent_id == pathAgent)) then
    .error ⟨404, "Watchlist item not found"⟩
  else
    .ok { s with watchlist := s.watchlist.filter (fun w => !(w.id == itemId)) }

/-- `PATCH /agents/:id/watchlist/:item_id`: updates the provided fields. -/
def patchWatchlist (s : State) (actingAgent : Option String) (pathAgent itemId : String)
    (priority : Option Int) (starred : Option Bool) (notes : Option String) :
    Except ErrResp State :=
  if !(actingAgent == some pathAgent) then
    .error ⟨403, "Can only modify your own watchlist"⟩
  else if !(s.watchlist.any (fun w => w.id == itemId && w.agent_id == pathAgent)) then
    .error ⟨404, "Watchlist item not found"⟩
  else if priority.isNone && starred.isNone && notes.isNone then
    .error ⟨400, "No fields to update"⟩
  else
    .ok { s with watchlist := s.watchlist.map (fun w =>
            if w.id == itemId then
              { w with priority := priority.getD w.priority
                       starred := starred.getD w.starred
                       notes := match notes with | some x => some x | none => w.notes }
            else w) }

/-! ### Feed ranking engine (`GET /agents/:id/feed`)

Each candidate row is modelled by the columns the final pipeline reads: the
`id` column of the row (for the two watchlist-thread sources this is the
watchlist entry's id, for every other source the post's id), the watchlist
`target_type`/`target_id` columns when present, the `reason`, the computed
`priority_score`, the post's vote counters, the watchlist priority that
entered the score (0 where none does), and the timestamps used for sorting. -/

structure FeedItem where
  id : String
  target_type : Option String
  target_id : Option String
  reason : String
  priority_score : Int
  upvotes : Int
  downvotes : Int
  wpriority : Int
  created_at : Nat
  last_activity : Option Nat
  deriving Repr, DecidableEq

/-- The dedup key `item.id || item.target_id || itemtype_itemtarget` of the
feed's duplicate filter (JS falsiness of the empty string included). -/
def dedupKey (it : FeedItem) : String :=
  if it.id != "" then it.id
  else
    match it.target_id with
    | some t =>
      if t != "" then t
      else it.target_type.getD "undefined" ++ "_" ++ (it.target_id.getD "undefined")
    | none => it.target_type.getD "undefined" ++ "_" ++ (it.target_id.getD "undefined")

/-- First-occurrence deduplication of feed items by `dedupKey`. -/
def dedupByKey (seen : List String) : List FeedItem → List FeedItem
  | [] => []
  | it :: rest =>
    if seen.contains (dedupKey it) then dedupByKey seen rest
    else it :: dedupByKey (dedupKey it :: seen) rest

/-- Ordering used inside most sources: `priority_score DESC`, then the
source's timestamp column `DESC` (the second component of the pair). -/
def srel (a b : FeedItem × Nat) : Prop :=
  b.1.priority_score < a.1.priority_score ∨
    (a.1.priority_score = b.1.priority_score ∧ b.2 ≤ a.2)

instance : DecidableRel srel := fun a b => by unfold srel; infer_instance

/-- Ordering of the trending source: net score `DESC`, then `created_at DESC`. -/
def trel (a b : FeedItem × Nat) : Prop :=
  b.1.upvotes - b.1.downvotes < a.1.upvotes - a.1.downvotes ∨
    (a.1.upvotes - a.1.downvotes = b.1.upvotes - b.1.downvotes ∧ b.2 ≤ a.2)

instance : DecidableRel trel := fun a b => by unfold trel; infer_instance

/-- Sorts candidate rows by the given order and applies the SQL `LIMIT`. -/
def sortLimit (r : FeedItem × Nat → FeedItem × Nat → Prop) [DecidableRel r]
    (lim : Option Nat) (rows : List (FeedItem × Nat)) : List FeedItem :=
  let sorted := (List.insertionSort r rows).map Prod.fst
  match lim with
  | some n => sorted.take n
  | none => sorted

/-- The `since` query filter (`AND ts > 'since'` when present). -/
def sinceOk (since : Option Nat) (ts : Nat) : Bool :=
  match since with
  | none => true
  | some v => v < ts

/-- SQL `p.agent_id != 'me'` (false when the column is NULL). -/
def authorNe (x : Option String) (me : String) : Bool :=
  match x with
  | some a => a != me
  | none => false

/-- Row of the starred-watchlist-threads source (tier 100, `SELECT w.*`, so the
row's id is the watchlist entry id). -/
def starredRow (w : WatchlistEntry) (t : Thread) (p : Post) : FeedItem :=
  { id := w.id, target_type := some w.target_type, target_id := some w.target_id
    reason := "starred_watchlist", priority_score := 100 + w.priority + p.upvotes * 5
    upvotes := p.upvotes, downvotes := p.downvotes, wpriority := w.priority
    created_at := w.created_at, last_activity := some t.last_activity }

/-- Tier 100: starred watchlist threads (no SQL LIMIT). -/
def starredThreads (s : State) (me : String) (since : Option Nat) : List FeedItem :=
  sortLimit srel none
    (s.watchlist.flatMap (fun w =>
      if w.agent_id == me && w.starred then
        (s.threads.filter (fun t =>
            w.target_type == "thread" && (t.id == w.target_id || t.root_post_id == w.target_id))).flatMap
          (fun t =>
            (s.posts.filter (fun p => p.id == t.root_post_id)).flatMap (fun p =>
              if sinceOk since t.last_activity then [(starredRow w t p, t.last_activity)]
              else []))
      else []))

/-- Row of the starred-agent-activity source (tier 95, `SELECT p.*`). -/
def starredAgentRow (w : WatchlistEntry) (p : Post) : FeedItem :=
  { id := p.id, target_type := none, target_id := none
    reason := "starred_agent_activity", priority_score := 95 + w.priority + p.upvotes * 5
    upvotes := p.upvotes, downvotes := p.downvotes, wpriority := w.priority
    created_at := p.created_at, last_activity := none }

/-- Tier 95: root posts authored by starred watched agents (LIMIT 20). -/
def starredAgentPosts (s : State) (me : String) (since : Option Nat) : List FeedItem :=
  sortLimit srel (some 20)
    (s.watchlist.flatMap (fun w =>
      if w.agent_id == me && w.starred then
        (s.posts.filter (fun p =>
            w.target_type == "agent" && p.agent_id == some w.target_id
              && p.parent_id == none && sinceOk since p.created_at)).map
          (fun p => (starredAgentRow w p, p.created_at))
      else []))

/-- Row of the unresponded-mentions source (tier 90, `SELECT p.*` after the
aliased mention columns). -/
def mentionRow (p : Post) : FeedItem :=
  { id := p.id, target_type := none, target_id := none
    reason := "unresponded_mention", priority_score := 90 + p.upvotes * 5
    upvotes := p.upvotes, downvotes := p.downvotes, wpriority := 0
    created_at := p.created_at, last_activity := none }

/-- Tier 90: posts carrying an unresponded mention obligation for the agent
(LIMIT 20, ordered by score then mention creation time). -/
def unrespondedMentions (s : State) (me : String) : List FeedItem :=
  sortLimit srel (some 20)
    (s.mentions.flatMap (fun m =>
      if m.mentioned_agent_id == me && !m.responded then
        (s.posts.filter (fun p => p.id == m.post_id)).map
          (fun p => (mentionRow p, m.created_at))
      else []))

/-- Row of the upvoted-by-watched source (tier 85). -/
def upvotedRow (p : Post) : FeedItem :=
  { id := p.id, target_type := none, target_id := none
    reason := "upvoted_by_watched", priority_score := 85 + p.upvotes * 5
    upvotes := p.upvotes, downvotes := p.downvotes, wpriority := 0
    created_at := p.created_at, last_activity := none }

/-- Tier 85: root posts upvoted by a watched agent, excluding the caller's own
posts (grouped by post; LIMIT 20).  Skipped entirely when no agents are watched. -/
def upvotedByWatched (s : State) (me : String) (since : Option Nat) : List FeedItem :=
  let watched := (s.watchlist.filter (fun w =>
    w.agent_id == me && w.target_type == "agent")).map (fun w => w.target_id)
  if watched.isEmpty then []
  else
    sortLimit srel (some 20)
      (s.posts.flatMap (fun p =>
        if p.parent_id == none && authorNe p.agent_id me
            && s.votes.any (fun v =>
                v.post_id == p.id && v.vote == 1 && watched.contains v.agent_id)
            && sinceOk since p.created_at then
          [(upvotedRow p, p.created_at)]
        else []))

/-- Row of the plain-watchlist-threads source (tier 80, `SELECT w.*`). -/
def watchRow (w : WatchlistEntry) (t : Thread) (p : Post) : FeedItem :=
  { id := w.id, target_type := some w.target_type, target_id := some w.target_id
    reason := "watchlist", priority_score := 80 + w.priority + p.upvotes * 5
    upvotes := p.upvotes, downvotes := p.downvotes, wpriority := w.priority
    created_at := w.created_at, last_activity := some t.last_activity }

/-- Tier 80: non-starred watchlist threads (no SQL LIMIT). -/
def watchlistThreads (s : State) (me : String) (since : Option Nat) : List FeedItem :=
  sortLimit srel none
    (s.watchlist.flatMap (fun w =>
      if w.agent_id == me && !w.starred then
        (s.threads.filter (fun t =>
            w.target_type == "thread" && (t.id == w.target_id || t.root_post_id == w.target_id))).flatMap
          (fun t =>
            (s.posts.filter (fun p => p.id == t.root_post_id)).flatMap (fun p =>
              if sinceOk since t.last_activity then [(watchRow w t p, t.last_activity)]
              else []))
      else []))

/-- Row of the text-mentions source (tier 70). -/
def textMentionRow (p : Post) : FeedItem :=
  { id := p.id, target_type := none, target_id := none
    reason := "mention", priority_score := 70 + p.upvotes * 5
    upvotes := p.upvotes, downvotes := p.downvotes, wpriority := 0
    created_at := p.created_at, last_activity := none }

/-- Tier 70: posts whose content contains `@me` (LIMIT 20). -/
def textMentions (s : State) (me : String) (since : Option Nat) : List FeedItem :=
  sortLimit srel (some 20)
    (s.posts.flatMap (fun p =>
      if contentMentions p.content me && sinceOk since p.created_at then
        [(textMentionRow p, p.created_at)]
      else []))

/-- Row of the replies-to-you source (tier 60). -/
def replyRow (p : Post) : FeedItem :=
  { id := p.id, target_type := none, target_id := none
    reason := "reply_to_you", priority_score := 60 + p.upvotes * 5
    upvotes := p.upvotes, downvotes := p.downvotes, wpriority := 0
    created_at := p.created_at, last_activity := none }

/-- Tier 60: replies whose parent was authored by the caller, excluding
self-replies (LIMIT 20). -/
def repliesToMe (s : State) (me : String) (since : Option Nat) : List FeedItem :=
  sortLimit srel (some 20)
    (s.posts.flatMap (fun reply =>
      if authorNe reply.agent_id me && sinceOk since reply.created_at
          && s.posts.any (fun parent =>
              reply.parent_id == some parent.id && parent.agent_id == some me) then
        [(replyRow reply, reply.created_at)]
      else []))

/-- Row of the subscriptions source (tier 50). -/
def subRow (p : Post) : FeedItem :=
  { id := p.id, target_type := none, target_id := none
    reason := "subscription", priority_score := 50 + p.upvotes * 5
    upvotes := p.upvotes, downvotes := p.downvotes, wpriority := 0
    created_at := p.created_at, last_activity := none }

/-- Tier 50: posts matching an active subscription, excluding the caller's own
posts (LIMIT 30). -/
def subscribedActivity (s : State) (me : String) (since : Option Nat) : List FeedItem :=
  sortLimit srel (some 30)
    (s.subscriptions.flatMap (fun sub =>
      if sub.agent_id == me then
        (s.posts.filter (fun p =>
            ((sub.target_type == "post" && p.parent_id == some sub.target_id)
              || (sub.target_type == "submolt" && p.submolt_id == some sub.target_id
                    && p.parent_id == none))
              && authorNe p.agent_id me && sinceOk since p.created_at)).map
          (fun p => (subRow p, p.created_at))
      else []))

/-- Row of the trending source (tier 40). -/
def trendingRow (p : Post) : FeedItem :=
  { id := p.id, target_type := none, target_id := none
    reason := "trending", priority_score := 40 + p.upvotes * 5
    upvotes := p.upvotes, downvotes := p.downvotes, wpriority := 0
    created_at := p.created_at, last_activity := none }

/-- Tier 40: root posts with net score at least 3, excluding the caller's own
posts (LIMIT 15, ordered by net score). -/
def highUpvotePosts (s : State) (me : String) (since : Option Nat) : List FeedItem :=
  sortLimit trel (some 15)
    (s.posts.flatMap (fun p =>
      if p.parent_id == none && authorNe p.agent_id me
          && 3 ≤ p.upvotes - p.downvotes && sinceOk since p.created_at then
        [(trendingRow p, p.created_at)]
      else []))

/-- Row of the submolt-activity source (tier 30). -/
def submoltRow (p : Post) : FeedItem :=
  { id := p.id, target_type := none, target_id := none
    reason := "submolt_activity", priority_score := 30 + p.upvotes * 5
    upvotes := p.upvotes, downvotes := p.downvotes, wpriority := 0
    created_at := p.created_at, last_activity := none }

/-- Tier 30: root posts in submolts the caller has posted in (LIMIT 30).
Skipped entirely when the caller has no posts. -/
def recentInSubmolts (s : State) (me : String) (since : Option Nat) : List FeedItem :=
  let mine := s.posts.filter (fun p => p.agent_id == some me)
  if mine.isEmpty then []
  else
    sortLimit srel (some 30)
      (s.posts.flatMap (fun p =>
        if mine.any (fun q => q.submolt_id == p.submolt_id) && authorNe p.agent_id me
            && p.parent_id == none && sinceOk since p.created_at then
          [(submoltRow p, p.created_at)]
        else []))

/-- The timestamp a feed item is finally sorted by
(`a.last_activity || a.created_at`). -/
def sortTime (it : FeedItem) : Nat :=
  it.last_activity.getD it.created_at

/-- Final ordering of the deduplicated feed: `priority_score` descending, then
activity timestamp descending (the JS comparator, as a stable total preorder). -/
def finalRel (a b : FeedItem) : Prop :=
  b.priority_score < a.priority_score ∨
    (a.priority_score = b.priority_score ∧ sortTime b ≤ sortTime a)

instance : DecidableRel finalRel := fun a b => by unfold finalRel; infer_instance

/-- All candidate rows, concatenated in source (tier) order. -/
def feedCandidates (s : State) (me : String) (since : Option Nat) : List FeedItem :=
  starredThreads s me since ++ starredAgentPosts s me since
    ++ unrespondedMentions s me ++ upvotedByWatched s me since
    ++ watchlistThreads s me since ++ textMentions s me since
    ++ repliesToMe s me since ++ subscribedActivity s me since
    ++ highUpvotePosts s me since ++ recentInSubmolts s me since

/-- The feed pipeline after candidate gathering: first-occurrence dedup by key,
stable sort by score then recency, truncation to `limit`. -/
def computeFeedItems (s : State) (me : String) (since : Option Nat) (limit : Nat) :
    List FeedItem :=
  (List.insertionSort finalRel (dedupByKey [] (feedCandidates s me since))).take limit

/-- `GET /agents/:id/feed`: 404 for an unknown agent, otherwise the ranked feed. -/
def computeFeed (s : State) (me : String) (since : Option Nat) (limit : Nat) :
    Except ErrResp (List FeedItem) :=
  if (lookupAgent s me).isNone then .error ⟨404, "Agent not found"⟩
  else .ok (computeFeedItems s me since limit)

/-- The base tier of each feed reason, as listed in the route's tier table. -/
def tierOf : String → Int
  | "starred_watchlist" => 100
  | "starred_agent_activity" => 95
  | "unresponded_mention" => 90
  | "upvoted_by_watched" => 85
  | "watchlist" => 80
  | "mention" => 70
  | "reply_to_you" => 60
  | "subscription" => 50
  | "trending" => 40
  | "submolt_activity" => 30
  | _ => 0

/-! ### Specification-side definitions used by the theorems -/

/-- The shape of `generateId` output: `Date.now().toString(36)` + `_` + a
base-36 slice, i.e. exactly one underscore with none in either segment. -/
def goodId (id : String) : Bool :=
  id.data.count '_' == 1

/-- A post id not yet present in the table (what `generateId` guarantees). -/
def freshPostId (s : State) (i : String) : Prop :=
  ∀ p ∈ s.posts, p.id ≠ i

/-- The number of vote rows for a post with the given value
(`SELECT COUNT(*) FROM votes WHERE post_id = ? AND vote = ?`). -/
def cntV (votes : List Vote) (pid : String) (x : Int) : Nat :=
  (votes.filter (fun v => v.post_id == pid && v.vote == x)).length

/-- Whether the mention obligation keyed by (post, mentioned agent) is
responded (first row with that key; false when absent). -/
def respondedAt (l : List Mention) (p a : String) : Bool :=
  match l.find? (fun m => m.post_id == p && m.mentioned_agent_id == a) with
  | some m => m.responded
  | none => false

/-- State-level view of `respondedAt`. -/
def mentionRespondedAt (s : State) (p a : String) : Bool :=
  respondedAt s.mentions p a

/-- A feed item's score decomposed as the code computes it:
base tier of its reason, plus the watchlist priority that entered the score,
plus five times the post's raw upvote count. -/
def scoreFits (it : FeedItem) : Prop :=
  it.priority_score = tierOf it.reason + it.wpriority + it.upvotes * 5

/-- One state transition of the modelled system: any core route applied
successfully, with `generateId` freshness for new post ids. -/
inductive Step : State → State → Prop
  | register (s s' : State) (id name : String)
      (h : registerAgent s id name = .ok s') : Step s s'
  | post (s s' : State) (agentId : String) (submoltId title : Option String)
      (content : String) (postType : Option String) (tags newId : String)
      (gen : Nat → String) (now : Nat)
      (hfresh : freshPostId s newId) (hgood : goodId newId = true)
      (h : createPost s agentId submoltId title content postType tags newId gen now = .ok s') :
      Step s s'
  | reply (s s' : State) (targetId agentId content newId : String)
      (gen : Nat → String) (now : Nat)
      (hfresh : freshPostId s newId) (hgood : goodId newId = true)
      (h : createReply s targetId agentId content newId gen now = .ok s') : Step s s'
  | fork (s s' : State) (origId agentId : String) (title content : Option String)
      (newId : String) (now : Nat)
      (hfresh : freshPostId s newId) (hgood : goodId newId = true)
      (h : forkPost s origId agentId title content newId now = .ok s') : Step s s'
  | vote (s s' : State) (postId agentId : String) (v : Int) (now : Nat)
      (h : applyVote s postId agentId v now = .ok s') : Step s s'
  | upvote (s s' : State) (acting : Option String) (postId : String) (now : Nat)
      (h : upvotePost s acting postId now = .ok s') : Step s s'
  | downvote (s s' : State) (acting : Option String) (postId : String) (now : Nat)
      (h : downvotePost s acting postId now = .ok s') : Step s s'
  | unvote (s s' : State) (acting : Option String) (postId : String)
      (h : removeVote s acting postId = .ok s') : Step s s'
  | lock (s s' : State) (postId : String) (now : Nat)
      (h : lockThread s postId now = .ok s') : Step s s'
  | resolve (s s' : State) (postId : String) (now : Nat)
      (h : resolveThread s postId now = .ok s') : Step s s'
  | reopen (s s' : State) (postId : String) (now : Nat)
      (h : reopenThread s postId now = .ok s') : Step s s'
  | pin (s s' : State) (tid : String)
      (h : pinThread s tid = .ok s') : Step s s'
  | unpin (s s' : State) (tid : String)
      (h : unpinThread s tid = .ok s') : Step s s'
  | ack (s s' : State) (acting : Option String) (pathAgent mentionId : String)
      (respPost : Option String)
      (h : ackMention s acting pathAgent mentionId respPost = .ok s') : Step s s'
  | ackAll (s s' : State) (acting : Option String) (pathAgent : String)
      (h : bulkAckAll s acting pathAgent = .ok s') : Step s s'
  | ackIds (s s' : State) (acting : Option String) (pathAgent : String)
      (ids : List String)
      (h : bulkAckIds s acting pathAgent ids = .ok s') : Step s s'
  | subPost (s s' : State) (acting : Option String) (postId newId : String)
      (h : subscribeToPost s acting postId newId = .ok s') : Step s s'
  | unsubPost (s s' : State) (acting : Option String) (postId : String)
      (h : unsubscribeFromPost s acting postId = .ok s') : Step s s'
  | subSubmolt (s s' : State) (acting : Option String) (submoltId newId : String)
      (h : subscribeToSubmolt s acting submoltId newId = .ok s') : Step s s'
  | unsubSubmolt (s s' : State) (acting : Option String) (submoltId : String)
      (h : unsubscribeFromSubmolt s acting submoltId = .ok s') : Step s s'
  | notifRead (s s' : State) (pathAgent : String) (ids : Option (List String))
      (h : markNotificationsRead s pathAgent ids = .ok s') : Step s s'
  | notifPurge (s s' : State) (pathAgent : String)
      (h : deleteReadNotifications s pathAgent = .ok s') : Step s s'
  | watchAdd (s s' : State) (acting : Option String) (pathAgent targetType targetId : String)
      (priority : Option Int) (starred : Bool) (notes : Option String)
      (newId : String) (now : Nat)
      (h : addWatchlist s acting pathAgent targetType targetId priority starred notes newId now = .ok s') :
      Step s s'
  | watchDel (s s' : State) (acting : Option String) (pathAgent itemId : String)
      (h : deleteWatchlist s acting pathAgent itemId = .ok s') : Step s s'
  | watchPatch (s s' : State) (acting : Option String) (pathAgent itemId : String)
      (priority : Option Int) (starred : Option Bool) (notes : Option String)
      (h : patchWatchlist s acting pathAgent itemId priority starred notes = .ok s') : Step s s'

/-- States reachable from the fresh database by any sequence of operations. -/
def Reachable (s : State) : Prop :=
  Relation.ReflTransGen Step State.init s

/-- The consistency invariant maintained by every operation. -/
structure Inv (s : State) : Prop where
  postsNodup : (s.posts.map Post.id).Nodup
  postsGood : ∀ p ∈ s.posts, goodId p.id = true
  votesNodup : (s.votes.map Vote.id).Nodup
  votesShape : ∀ v ∈ s.votes,
    (v.vote = 1 ∨ v.vote = -1) ∧ v.id = voteIdOf v.post_id v.agent_id
      ∧ ∃ p ∈ s.posts, p.id = v.post_id
  votesCount : ∀ p ∈ s.posts,
    p.upvotes = (cntV s.votes p.id 1 : Int) ∧ p.downvotes = (cntV s.votes p.id (-1) : Int)
  threadsRoot : ∀ t ∈ s.threads, ∃ p ∈ s.posts, p.id = t.root_post_id
  threadsRootNodup : (s.threads.map Thread.root_post_id).Nodup
  rootsThread : ∀ p ∈ s.posts, p.parent_id = none → p.forked_from = none →
    ∃ t ∈ s.threads, t.root_post_id = p.id

/-! ### Concrete execution traces used by witnesses and counterexamples -/

/-- Generator of notification/mention ids for concrete runs. -/
def g0 : Nat → String :=
  fun k => "n" ++ toString k

/-- Unwraps a successful operation result (traces below only take ok paths). -/
def exOk (x : Except ErrResp State) : State :=
  match x with
  | .ok s => s
  | .error _ => State.init

/-- The error response of an operation result, `none` on success. -/
def exceptStatus (x : Except ErrResp State) : Option (Nat × String) :=
  match x with
  | .error e => some (e.status, e.msg)
  | .ok _ => none

/-- C1 trace: register `me`; `alice` posts a root; three agents upvote it;
`me` stars the thread on its watchlist. -/
def c1sB : State :=
  exOk (createPost (exOk (registerAgent State.init "me" "me")) "alice" (some "decisions")
    (some "T") "hello" none "[]" "r1_a" g0 1)

def c1sF : State :=
  exOk (addWatchlist
    (exOk (upvotePost (exOk (upvotePost (exOk (upvotePost c1sB (some "b1") "r1_a" 2))
      (some "b2") "r1_a" 3)) (some "b3") "r1_a" 4))
    (some "me") "me" "thread" "r1_a" none true none "w1_a" 5)

/-- C2 trace: root by `alice`, reply by `bob`, deeper reply by `carol`,
then the root is locked. -/
def c2s3 : State :=
  exOk (createReply
    (exOk (createReply
      (exOk (createPost State.init "alice" (some "decisions") (some "T") "hello" none "[]"
        "t1_a" g0 1))
      "t1_a" "bob" "hi there" "t2_a" g0 2))
    "t2_a" "carol" "deep" "t3_a" g0 3)

def c2s4 : State :=
  exOk (lockThread c2s3 "t1_a" 4)

/-- C3 trace: fresh thread rooted by `alice`, first reply by `bob`. -/
def c3s2 : State :=
  exOk (createReply
    (exOk (createPost State.init "alice" (some "decisions") (some "T") "hello" none "[]"
      "t1_a" g0 1))
    "t1_a" "bob" "hi there" "t2_a" g0 2)

/-- C5 trace: root by `alice`; `carol` upvotes it, then downvotes it. -/
def c5s1 : State :=
  exOk (createPost State.init "alice" none none "hello" none "[]" "r1_a" g0 1)

def c5s2 : State :=
  exOk (applyVote c5s1 "r1_a" "carol" 1 2)

def c5s3 : State :=
  exOk (applyVote c5s2 "r1_a" "carol" (-1) 3)

/-- C6 trace: root by `alice`, then `bob` forks it. -/
def c6s2 : State :=
  exOk (forkPost c5s1 "r1_a" "bob" none none "f1_a" 2)

/-- C7 trace: register `me`; `alice` posts a root mentioning `@me`;
`bob` upvotes it and `carol` downvotes it. -/
def c7s2 : State :=
  exOk (createPost (exOk (registerAgent State.init "me" "me")) "alice" (some "decisions")
    (some "T") "hi @me please" none "[]" "r1_a" g0 1)

def c7s4 : State :=
  exOk (downvotePost (exOk (upvotePost c7s2 (some "bob") "r1_a" 2)) (some "carol") "r1_a" 3)

/-- C8 trace: register `bob`; `alice` posts a root mentioning `@bob`;
`bob` replies to the root. -/
def c8s1 : State :=
  exOk (createPost (exOk (registerAgent State.init "bob" "bob")) "alice" (some "decisions")
    (some "T") "ping @bob" none "[]" "t1_a" g0 1)

def c8s2 : State :=
  exOk (createReply c8s1 "t1_a" "bob" "on it" "t2_a" g0 2)

/-- One further operation after the reply (locking the root). -/
def c8s3 : State :=
  exOk (lockThread c8s2 "t1_a" 3)

/-- C9 trace: root by `alice` with one reply by `bob` (a non-root post). -/
def c9s2 : State :=
  exOk (createReply c5s1 "r1_a" "bob" "a reply" "r2_a" g0 2)

/-! ## Generic lemmas -/

theorem mem_if_nil {α : Type} {c : Prop} [Decidable c] {l : List α} {a : α}
    (h : a ∈ if c then l else []) : c ∧ a ∈ l := by
  split at h
  · exact ⟨by assumption, h⟩
  · cases h

theorem dedupByKey_sublist (seen : List String) (l : List FeedItem) :
    List.Sublist (dedupByKey seen l) l := by
  induction l generalizing seen with
  | nil => simp [dedupByKey]
  | cons it rest ih =>
    simp only [dedupByKey]
    split
    · exact (ih seen).cons it
    · exact (ih _).cons₂ it

theorem dedupByKey_spec (seen : List String) (l : List FeedItem) :
    ((dedupByKey seen l).map dedupKey).Nodup ∧
      ∀ it ∈ dedupByKey seen l, dedupKey it ∉ seen := by
  induction l generalizing seen with
  | nil => simp [dedupByKey]
  | cons it rest ih =>
    simp only [dedupByKey]
    split
    case isTrue h => exact ih seen
    case isFalse h =>
      have hseen : dedupKey it ∉ seen := by simpa using h
      refine ⟨?_, ?_⟩
      · simp only [List.map_cons, List.nodup_cons]
        refine ⟨?_, (ih (dedupKey it :: seen)).1⟩
        intro hmem
        simp only [List.mem_map] at hmem
        obtain ⟨it', hit', hkey⟩ := hmem
        have h2 := (ih (dedupKey it :: seen)).2 it' hit'
        simp [hkey] at h2
      · intro it' h'
        rcases List.mem_cons.mp h' with rfl | h'
        · exact hseen
        · have h2 := (ih (dedupKey it :: seen)).2 it' h'
          exact fun hc => h2 (List.mem_cons_of_mem _ hc)

theorem mem_sortLimit {r : FeedItem × Nat → FeedItem × Nat → Prop} [DecidableRel r]
    {lim : Option Nat} {rows : List (FeedItem × Nat)} {it : FeedItem}
    (h : it ∈ sortLimit r lim rows) : ∃ x ∈ rows, x.1 = it := by
  have h' : it ∈ (List.insertionSort r rows).map Prod.fst := by
    cases lim with
    | some n => exact List.take_subset _ _ h
    | none => exact h
  simp only [List.mem_map, List.mem_insertionSort] at h'
  obtain ⟨x, hx, hfst⟩ := h'
  exact ⟨x, hx, hfst⟩

/-! ## Per-source score shape -/

theorem scoreFits_starredThreads {s : State} {me : String} {since : Option Nat}
    {it : FeedItem} (h : it ∈ starredThreads s me since) : scoreFits it := by
  obtain ⟨x, hx, rfl⟩ := mem_sortLimit h
  simp only [List.mem_flatMap] at hx
  obtain ⟨w, _, hx⟩ := hx
  obtain ⟨_, hx⟩ := mem_if_nil hx
  simp only [List.mem_flatMap, List.mem_filter] at hx
  obtain ⟨t, _, hx⟩ := hx
  obtain ⟨p, _, hx⟩ := hx
  obtain ⟨_, hx⟩ := mem_if_nil hx
  simp only [List.mem_singleton] at hx
  subst hx
  simp [scoreFits, starredRow, tierOf]

theorem scoreFits_starredAgentPosts {s : State} {me : String} {since : Option Nat}
    {it : FeedItem} (h : it ∈ starredAgentPosts s me since) : scoreFits it := by
  obtain ⟨x, hx, rfl⟩ := mem_sortLimit h
  simp only [List.mem_flatMap] at hx
  obtain ⟨w, _, hx⟩ := hx
  obtain ⟨_, hx⟩ := mem_if_nil hx
  simp only [List.mem_map, List.mem_filter] at hx
  obtain ⟨p, _, hx⟩ := hx
  subst hx
  simp [scoreFits, starredAgentRow, tierOf]

theorem scoreFits_unrespondedMentions {s : State} {me : String}
    {it : FeedItem} (h : it ∈ unrespondedMentions s me) : scoreFits it := by
  obtain ⟨x, hx, rfl⟩ := mem_sortLimit h
  simp only [List.mem_flatMap] at hx
  obtain ⟨m, _, hx⟩ := hx
  obtain ⟨_, hx⟩ := mem_if_nil hx
  simp only [List.mem_map, List.mem_filter] at hx
  obtain ⟨p, _, hx⟩ := hx
  subst hx
  simp [scoreFits, mentionRow, tierOf]

theorem scoreFits_upvotedByWatched {s : State} {me : String} {since : Option Nat}
    {it : FeedItem} (h : it ∈ upvotedByWatched s me since) : scoreFits it := by
  unfold upvotedByWatched at h
  simp only [] at h
  split at h
  · cases h
  · obtain ⟨x, hx, rfl⟩ := mem_sortLimit h
    simp only [List.mem_flatMap] at hx
    obtain ⟨p, _, hx⟩ := hx
    obtain ⟨_, hx⟩ := mem_if_nil hx
    simp only [List.mem_singleton] at hx
    subst hx
    simp [scoreFits, upvotedRow, tierOf]

theorem scoreFits_watchlistThreads {s : State} {me : String} {since : Option Nat}
    {it : FeedItem} (h : it ∈ watchlistThreads s me since) : scoreFits it := by
  obtain ⟨x, hx, rfl⟩ := mem_sortLimit h
  simp only [List.mem_flatMap] at hx
  obtain ⟨w, _, hx⟩ := hx
  obtain ⟨_, hx⟩ := mem_if_nil hx
  simp only [List.mem_flatMap, List.mem_filter] at hx
  obtain ⟨t, _, hx⟩ := hx
  obtain ⟨p, _, hx⟩ := hx
  obtain ⟨_, hx⟩ := mem_if_nil hx
  simp only [List.mem_singleton] at hx
  subst hx
  simp [scoreFits, watchRow, tierOf]

theorem scoreFits_textMentions {s : State} {me : String} {since : Option Nat}
    {it : FeedItem} (h : it ∈ textMentions s me since) : scoreFits it := by
  obtain ⟨x, hx, rfl⟩ := mem_sortLimit h
  simp only [List.mem_flatMap] at hx
  obtain ⟨p, _, hx⟩ := hx
  obtain ⟨_, hx⟩ := mem_if_nil hx
  simp only [List.mem_singleton] at hx
  subst hx
  simp [scoreFits, textMentionRow, tierOf]

theorem scoreFits_repliesToMe {s : State} {me : String} {since : Option Nat}
    {it : FeedItem} (h : it ∈ repliesToMe s me since) : scoreFits it := by
  obtain ⟨x, hx, rfl⟩ := mem_sortLimit h
  simp only [List.mem_flatMap] at hx
  obtain ⟨p, _, hx⟩ := hx
  obtain ⟨_, hx⟩ := mem_if_nil hx
  simp only [List.mem_singleton] at hx
  subst hx
  simp [scoreFits, replyRow, tierOf]

theorem scoreFits_subscribedActivity {s : State} {me : String} {since : Option Nat}
    {it : FeedItem} (h : it ∈ subscribedActivity s me since) : scoreFits it := by
  obtain ⟨x, hx, rfl⟩ := mem_sortLimit h
  simp only [List.mem_flatMap] at hx
  obtain ⟨sub, _, hx⟩ := hx
  obtain ⟨_, hx⟩ := mem_if_nil hx
  simp only [List.mem_map, List.mem_filter] at hx
  obtain ⟨p, _, hx⟩ := hx
  subst hx
  simp [scoreFits, subRow, tierOf]

theorem scoreFits_highUpvotePosts {s : State} {me : String} {since : Option Nat}
    {it : FeedItem} (h : it ∈ highUpvotePosts s me since) : scoreFits it := by
  obtain ⟨x, hx, rfl⟩ := mem_sortLimit h
  simp only [List.mem_flatMap] at hx
  obtain ⟨p, _, hx⟩ := hx
  obtain ⟨_, hx⟩ := mem_if_nil hx
  simp only [List.mem_singleton] at hx
  subst hx
  simp [scoreFits, trendingRow, tierOf]

theorem scoreFits_recentInSubmolts {s : State} {me : String} {since : Option Nat}
    {it : FeedItem} (h : it ∈ recentInSubmolts s me since) : scoreFits it := by
  unfold recentInSubmolts at h
  simp only [] at h
  split at h
  · cases h
  · obtain ⟨x, hx, rfl⟩ := mem_sortLimit h
    simp only [List.mem_flatMap] at hx
    obtain ⟨p, _, hx⟩ := hx
    obtain ⟨_, hx⟩ := mem_if_nil hx
    simp only [List.mem_singleton] at hx
    subst hx
    simp [scoreFits, submoltRow, tierOf]

theorem scoreFits_candidates {s : State} {me : String} {since : Option Nat}
    {it : FeedItem} (h : it ∈ feedCandidates s me since) : scoreFits it := by
  simp only [feedCandidates, List.mem_append] at h
  rcases h with ((((((((h | h) | h) | h) | h) | h) | h) | h) | h) | h
  · exact scoreFits_starredThreads h
  · exact scoreFits_starredAgentPosts h
  · exact scoreFits_unrespondedMentions h
  · exact scoreFits_upvotedByWatched h
  · exact scoreFits_watchlistThreads h
  · exact scoreFits_textMentions h
  · exact scoreFits_repliesToMe h
  · exact scoreFits_subscribedActivity h
  · exact scoreFits_highUpvotePosts h
  · exact scoreFits_recentInSubmolts h

theorem mem_computeFeedItems {s : State} {me : String} {since : Option Nat}
    {limit : Nat} {it : FeedItem} (h : it ∈ computeFeedItems s me since limit) :
    it ∈ feedCandidates s me since := by
  unfold computeFeedItems at h
  have h1 : it ∈ List.insertionSort finalRel (dedupByKey [] (feedCandidates s me since)) :=
    List.take_subset _ _ h
  rw [List.mem_insertionSort] at h1
  exact (dedupByKey_sublist [] _).subset h1

theorem computeFeed_ok {s : State} {me : String} {since : Option Nat} {limit : Nat}
    {l : List FeedItem} (h : computeFeed s me since limit = .ok l) :
    l = computeFeedItems s me since limit := by
  unfold computeFeed at h
  split at h
  · cases h
  · exact (Except.ok.injEq _ _ |>.mp h).symm

/-! ## Claim C7 -/

/-- Claim C7 (amended): every item returned by `computeFeed` has
`priority_score` equal to its source tier, plus the watchlist priority for the
watchlist-scored sources, plus five times the post's raw `upvotes` count — the
code multiplies `upvotes`, not the net score `upvotes - downvotes`. -/
theorem feed_score_formula :
    ∀ (s : State) (me : String) (since : Option Nat) (limit : Nat) (l : List FeedItem),
      computeFeed s me since limit = .ok l → ∀ it ∈ l, scoreFits it := by
  intro s me since limit l h it hit
  rw [computeFeed_ok h] at hit
  exact scoreFits_candidates (mem_computeFeedItems hit)

/-- Witness for `feed_score_formula` at the C7 trace: the unresponded-mention
item for the post with one upvote and one downvote scores 90 + 1 * 5 = 95. -/
theorem feed_score_formula_witness :
    scoreFits { id := "r1_a", target_type := none, target_id := none
                reason := "unresponded_mention", priority_score := 95
                upvotes := 1, downvotes := 1, wpriority := 0
                created_at := 1, last_activity := none } := by
  refine feed_score_formula c7s4 "me" none 50 (computeFeedItems c7s4 "me" none 50) ?_ _ ?_
  · have hag : (lookupAgent c7s4 "me").isNone = false := by decide
    simp [computeFeed, hag]
  · decide

/-- Claim C7 counterexample: in the C7 trace the post under the unresponded
mention has upvotes = 1 and downvotes = 1 (net score 0), and the returned
`priority_score` is 95 = 90 + upvotes * 5, not 90 + (upvotes - downvotes) * 5
= 90 as the claim's net-score formula would give. -/
theorem c7_counterexample :
    ((computeFeedItems c7s4 "me" none 50).map fun it =>
        (it.reason, it.priority_score, it.upvotes, it.downvotes))
      = [("unresponded_mention", 95, 1, 1)]
    ∧ (lookupAgent c7s4 "me").isSome = true
    ∧ (95 : Int) ≠ 90 + (1 - 1) * 5 := by
  refine ⟨by decide, by decide, by decide⟩

/-! ## Claim C1 -/

/-- Claim C1 (amended): the feed's deduplication is by each candidate row's
`id` column — the watchlist entry id for the two watchlist-thread sources, the
post id for every other source — keeping the first instance in source order;
the returned items therefore have pairwise distinct dedup keys, but an item
reachable both through a watchlist-thread row and a post-keyed source appears
twice. -/
theorem feed_dedup_keys :
    ∀ (s : State) (me : String) (since : Option Nat) (limit : Nat) (l : List FeedItem),
      computeFeed s me since limit = .ok l →
        l.Pairwise (fun a b => dedupKey a ≠ dedupKey b) := by
  intro s me since limit l h
  rw [computeFeed_ok h]
  have hdd : (dedupByKey [] (feedCandidates s me since)).Pairwise
      (fun a b => dedupKey a ≠ dedupKey b) := by
    have hnd := (dedupByKey_spec [] (feedCandidates s me since)).1
    simpa [List.Nodup, List.pairwise_map] using hnd
  have hsorted := ((List.perm_insertionSort finalRel
    (dedupByKey [] (feedCandidates s me since))).pairwise_iff
      (fun hxy => fun he => hxy he.symm)).mpr hdd
  exact hsorted.sublist (List.take_sublist _ _)

/-- Witness for `feed_dedup_keys` at the C1 trace. -/
theorem feed_dedup_keys_witness :
    (computeFeedItems c1sF "me" none 50).Pairwise (fun a b => dedupKey a ≠ dedupKey b) := by
  refine feed_dedup_keys c1sF "me" none 50 (computeFeedItems c1sF "me" none 50) ?_
  have hag : (lookupAgent c1sF "me").isNone = false := by decide
  simp [computeFeed, hag]

/-- Claim C1 counterexample: in the C1 trace the feed returns the root post
`r1_a` twice — once as the starred watchlist item (row id `w1_a`, the
watchlist entry's id, scored 115) and once as the trending item (row id
`r1_a`, scored 55) — so the same underlying target appears twice and the two
instances carry different scores. -/
theorem c1_counterexample :
    ((computeFeedItems c1sF "me" none 50).map fun it =>
        (it.reason, it.id, it.target_id, it.priority_score))
      = [("starred_watchlist", "w1_a", some "r1_a", 115), ("trending", "r1_a", none, 55)]
    ∧ (lookupAgent c1sF "me").isSome = true := by
  refine ⟨by decide, by decide⟩

/-! ## Claim C10 -/

theorem markRead_fold (a : String) (ids : List String) (s : State) :
    (ids.foldl (fun acc nid =>
        { acc with notifications := acc.notifications.map (fun n =>
            if n.id == nid && n.agent_id == a then { n with read := true } else n) }) s)
      = { s with notifications := s.notifications.map (fun n =>
          if n.agent_id = a ∧ n.id ∈ ids then { n with read := true } else n) } := by
  induction ids generalizing s with
  | nil => simp
  | cons nid rest ih =>
    rw [List.foldl_cons, ih]
    simp only [List.map_map]
    have hfun : ((fun n : Notification =>
          if n.agent_id = a ∧ n.id ∈ rest then { n with read := true } else n) ∘
        (fun n : Notification =>
          if n.id == nid && n.agent_id == a then { n with read := true } else n))
        = (fun n : Notification =>
          if n.agent_id = a ∧ n.id ∈ nid :: rest then { n with read := true } else n) := by
      funext n
      by_cases h1 : n.agent_id = a <;> by_cases h2 : n.id = nid <;>
        by_cases h3 : n.id ∈ rest <;>
        simp [Function.comp, h1, h2, h3]
    rw [hfun]

/-- Claim C10: mark-notifications-read with an explicit id list sets exactly
the `read` flag of the listed notifications that belong to the path agent;
every other notification row, and every other field, is unchanged, and no
other table is touched. -/
theorem notifications_read_frame :
    ∀ (s : State) (a : String) (ids : List String),
      markNotificationsRead s a (some ids) = .ok
        { s with notifications := s.notifications.map (fun n =>
            if n.agent_id = a ∧ n.id ∈ ids then { n with read := true } else n) } := by
  intro s a ids
  have h0 : markNotificationsRead s a (some ids)
      = .ok (ids.foldl (fun acc nid =>
          { acc with notifications := acc.notifications.map (fun n =>
              if n.id == nid && n.agent_id == a then { n with read := true } else n) }) s) :=
    rfl
  rw [h0, markRead_fold]

/-! ## Claim C9 -/

/-- Claim C9 (amended): `lockThread` and `resolveThread` fail with the
InvalidOperation error (status 400, only-root message) on a post with a
non-null parent, performing no mutation; `reopenThread` performs no root
check and succeeds on any existing post. -/
theorem root_only_status_ops :
    (∀ (s : State) (pid : String) (now : Nat) (p : Post),
        lookupPost s pid = some p → p.parent_id.isSome →
          lockThread s pid now = .error ⟨400, "Only root posts can be locked"⟩)
  ∧ (∀ (s : State) (pid : String) (now : Nat) (p : Post),
        lookupPost s pid = some p → p.parent_id.isSome →
          resolveThread s pid now = .error ⟨400, "Only root posts can be resolved"⟩)
  ∧ (∀ (s : State) (pid : String) (now : Nat) (p : Post),
        lookupPost s pid = some p → (reopenThread s pid now).isOk = true) := by
  refine ⟨?_, ?_, ?_⟩
  · intro s pid now p hl hp
    simp [lockThread, hl, hp]
  · intro s pid now p hl hp
    simp [resolveThread, hl, hp]
  · intro s pid now p hl
    simp [reopenThread, hl, Except.isOk, Except.toBool]

/-- Witness for `root_only_status_ops` at the C9 trace (the reply `r2_a`). -/
theorem root_only_status_ops_witness :
    lockThread c9s2 "r2_a" 9 = .error ⟨400, "Only root posts can be locked"⟩
  ∧ resolveThread c9s2 "r2_a" 9 = .error ⟨400, "Only root posts can be resolved"⟩
  ∧ (reopenThread c9s2 "r2_a" 9).isOk = true := by
  have hl : lookupPost c9s2 "r2_a" = some
      { id := "r2_a", submolt_id := some "decisions", agent_id := some "bob"
        parent_id := some "r1_a", forked_from := none, title := none
        content := "a reply", post_type := "reply", status := "open", tags := "[]"
        upvotes := 0, downvotes := 0, created_at := 2, updated_at := 2 } := by decide
  exact ⟨root_only_status_ops.1 c9s2 "r2_a" 9 _ hl (by decide),
         root_only_status_ops.2.1 c9s2 "r2_a" 9 _ hl (by decide),
         root_only_status_ops.2.2 c9s2 "r2_a" 9 _ hl⟩

/-- Claim C9 counterexample: `reopenThread` invoked on the non-root post
`r2_a` (parent `r1_a`) succeeds instead of failing with InvalidOperation. -/
theorem c9_counterexample :
    (reopenThread c9s2 "r2_a" 9).isOk = true
  ∧ (lookupPost c9s2 "r2_a").map Post.parent_id = some (some "r1_a") := by
  exact ⟨by decide, by decide⟩

/-! ## Claim C2 -/

/-- Claim C2 (code bug): with the root `t1_a` locked, a reply to its direct
child `t2_a` is rejected 403 Forbidden, but a reply to the grandchild `t3_a`
in the same tree succeeds, because the reply route's lock check reads
`parent.parent_id` (one level up) instead of resolving the root. -/
theorem locked_thread_reply_bug :
    (lookupPost c2s4 "t1_a").map Post.status = some "locked"
  ∧ findRootPostId c2s4 "t3_a" = some "t1_a"
  ∧ exceptStatus (createReply c2s4 "t2_a" "dave" "more" "t4_a" g0 5)
      = some (403, "Thread is locked")
  ∧ exceptStatus (createReply c2s4 "t3_a" "dave" "more" "t5_a" g0 5) = none := by
  refine ⟨by decide, by decide, by decide, by decide⟩

/-! ## Claim C3 -/

/-- Claim C3 (code bug): in a fresh thread rooted by `alice`, after `bob`'s
first reply the thread row has reply_count = 1 but participant_count = 1, not
2: the new-participant membership test runs after the reply row is inserted,
so it always finds the replying agent's own new reply and never increments. -/
theorem participant_count_bug :
    (c3s2.threads.map fun t => (t.root_post_id, t.reply_count, t.participant_count))
      = [("t1_a", 1, 1)]
  ∧ (lookupPost c3s2 "t1_a").bind Post.agent_id = some "alice"
  ∧ (lookupPost c3s2 "t2_a").bind Post.agent_id = some "bob"
  ∧ existingParticipant c3s2 "t1_a" "bob" = true := by
  refine ⟨by decide, by decide, by decide, by decide⟩

/-! ## Vote-ledger lemmas -/

theorem find?_pred {α : Type} {q : α → Bool} {l : List α} {x : α}
    (h : l.find? q = some x) : q x = true := by
  induction l with
  | nil => cases h
  | cons y ys ih =>
    by_cases hy : q y
    · simp [List.find?_cons, hy] at h
      subst h
      exact hy
    · simp [List.find?_cons, hy] at h
      exact ih h

theorem find?_map_pres {α : Type} (f : α → α) (q : α → Bool) (l : List α)
    (hq : ∀ x, q (f x) = q x) : (l.map f).find? q = (l.find? q).map f := by
  induction l with
  | nil => simp
  | cons x xs ih =>
    simp only [List.map_cons, List.find?_cons]
    rw [hq x]
    cases hqx : q x <;> simp [ih]

theorem find?_filter_not {α : Type} (q : α → Bool) (l : List α) :
    (l.filter (fun x => !(q x))).find? q = none := by
  induction l with
  | nil => simp
  | cons x xs ih =>
    by_cases hx : q x <;> simp [List.filter_cons, hx, ih]

theorem lookupPost_id {s : State} {pid : String} {p : Post}
    (h : lookupPost s pid = some p) : p.id = pid := by
  unfold lookupPost at h
  have hx := find?_pred h
  simpa using hx

theorem lookupVote_id {s : State} {vid : String} {w : Vote}
    (h : lookupVote s vid = some w) : w.id = vid := by
  unfold lookupVote at h
  have hx := find?_pred h
  simpa using hx

theorem lookupPost_map (s : State) (votes' : List Vote) (f : Post → Post)
    (hf : ∀ x, (f x).id = x.id) (q : String) :
    lookupPost { s with posts := s.posts.map f, votes := votes' } q
      = (lookupPost s q).map f := by
  unfold lookupPost
  exact find?_map_pres _ _ _ (fun x => by rw [hf])

theorem lookupVote_map (s : State) (posts' : List Post) (f : Vote → Vote)
    (hf : ∀ w, (f w).id = w.id) (q : String) :
    lookupVote { s with votes := s.votes.map f, posts := posts' } q
      = (lookupVote s q).map f := by
  unfold lookupVote
  exact find?_map_pres _ _ _ (fun x => by rw [hf])

theorem lookupPost_frame {s : State} {pid : String} (f : Post → Post)
    (hf : ∀ x, (f x).id = x.id) (hch : ∀ x, ¬(x.id = pid) → f x = x)
    (votes' : List Vote) {q : String} (hq : ¬(q = pid)) :
    lookupPost { s with posts := s.posts.map f, votes := votes' } q
      = lookupPost s q := by
  rw [lookupPost_map s votes' f hf]
  cases hrq : lookupPost s q with
  | none => rfl
  | some r =>
    have hrq' : r.id = q := lookupPost_id hrq
    have hfr : f r = r := hch r (by rw [hrq']; exact hq)
    simp [hfr]

/-! ## Claim C5 -/

/-- Claim C5: the tri-state transition table of `applyVote`: same value is a
no-op with the state unchanged; the opposite value updates the vote row in
place (same row id, vote flipped, row count unchanged) and moves exactly one
count from the old counter to the new one; value 0 deletes the row and
decrements the matching counter; value 0 with no existing vote is a no-op;
and in the concrete scenario an upvote followed by a downvote by the same
voter ends with upvotes = 0, downvotes = 1 and exactly one vote row, valued
-1.  Posts other than the voted one are never touched. -/
theorem applyVote_table :
    (∀ (s : State) (pid a : String) (v : Int) (now : Nat) (ex : Vote) (p : Post),
        ¬(a = "") → lookupPost s pid = some p →
        lookupVote s (voteIdOf pid a) = some ex → ex.vote = v → (v = 1 ∨ v = -1) →
        applyVote s pid a v now = .ok s)
  ∧ (∀ (s : State) (pid a : String) (v : Int) (now : Nat) (ex : Vote) (p : Post) (s' : State),
        ¬(a = "") → lookupPost s pid = some p →
        lookupVote s (voteIdOf pid a) = some ex → ex.vote = -v → (v = 1 ∨ v = -1) →
        applyVote s pid a v now = .ok s' →
        lookupVote s' (voteIdOf pid a) = some { ex with vote := v }
          ∧ s'.votes.length = s.votes.length
          ∧ lookupPost s' pid = some { p with
              upvotes := p.upvotes + (if v = 1 then 1 else -1)
              downvotes := p.downvotes + (if v = 1 then -1 else 1) }
          ∧ ∀ q, ¬(q = pid) → lookupPost s' q = lookupPost s q)
  ∧ (∀ (s : State) (pid a : String) (now : Nat) (ex : Vote) (p : Post) (s' : State),
        ¬(a = "") → lookupPost s pid = some p →
        lookupVote s (voteIdOf pid a) = some ex →
        applyVote s pid a 0 now = .ok s' →
        lookupVote s' (voteIdOf pid a) = none
          ∧ s'.votes = s.votes.filter (fun w => !(w.id == voteIdOf pid a))
          ∧ lookupPost s' pid = some { p with
              upvotes := p.upvotes + (if ex.vote = 1 then -1 else 0)
              downvotes := p.downvotes + (if ex.vote = 1 then 0 else -1) }
          ∧ ∀ q, ¬(q = pid) → lookupPost s' q = lookupPost s q)
  ∧ (∀ (s : State) (pid a : String) (now : Nat) (p : Post),
        ¬(a = "") → lookupPost s pid = some p →
        lookupVote s (voteIdOf pid a) = none →
        applyVote s pid a 0 now = .ok s)
  ∧ ((c5s3.posts.map fun p => (p.id, p.upvotes, p.downvotes)) = [("r1_a", 0, 1)]
      ∧ (c5s3.votes.map fun w => (w.post_id, w.agent_id, w.vote)) = [("r1_a", "carol", -1)]) := by
  refine ⟨?_, ?_, ?_, ?_, by decide, by decide⟩
  · intro s pid a v now ex p ha hlp hlv hexv hvv
    rcases hvv with rfl | rfl <;> simp [applyVote, ha, hlp, hlv, hexv]
  · intro s pid a v now ex p s' ha hlp hlv hexv hvv happ
    have hexid : ex.id = voteIdOf pid a := lookupVote_id hlv
    have hpid : p.id = pid := lookupPost_id hlp
    rcases hvv with rfl | rfl
    · have hexv' : ex.vote = -1 := by simpa using hexv
      have key : applyVote s pid a 1 now = .ok
          { s with
            votes := s.votes.map (fun w =>
              if w.id == voteIdOf pid a then { w with vote := 1 } else w)
            posts := bumpCounters s.posts pid 1 (-1) } := by
        simp [applyVote, ha, hlp, hlv, hexv']
      rw [key] at happ
      injection happ with hs'
      subst hs'
      refine ⟨?_, by simp, ?_, ?_⟩
      · rw [lookupVote_map s _ _
          (fun w => by by_cases h : (w.id == voteIdOf pid a) = true <;> simp [h]), hlv]
        simp [hexid]
      · rw [show bumpCounters s.posts pid 1 (-1) = s.posts.map (fun x =>
            if x.id == pid then { x with upvotes := x.upvotes + 1, downvotes := x.downvotes + (-1) } else x)
          from rfl]
        rw [lookupPost_map s _ _
          (fun x => by by_cases h : (x.id == pid) = true <;> simp [h]), hlp]
        simp [hpid]
      · intro q hq
        rw [show bumpCounters s.posts pid 1 (-1) = s.posts.map (fun x =>
            if x.id == pid then { x with upvotes := x.upvotes + 1, downvotes := x.downvotes + (-1) } else x)
          from rfl]
        exact lookupPost_frame _
          (fun x => by by_cases h : (x.id == pid) = true <;> simp [h])
          (fun x hx => by simp [hx]) _ hq
    · have hexv' : ex.vote = 1 := by simpa using hexv
      have key : applyVote s pid a (-1) now = .ok
          { s with
            votes := s.votes.map (fun w =>
              if w.id == voteIdOf pid a then { w with vote := -1 } else w)
            posts := bumpCounters s.posts pid (-1) 1 } := by
        simp [applyVote, ha, hlp, hlv, hexv']
      rw [key] at happ
      injection happ with hs'
      subst hs'
      refine ⟨?_, by simp, ?_, ?_⟩
      · rw [lookupVote_map s _ _
          (fun w => by by_cases h : (w.id == voteIdOf pid a) = true <;> simp [h]), hlv]
        simp [hexid]
      · rw [show bumpCounters s.posts pid (-1) 1 = s.posts.map (fun x =>
            if x.id == pid then { x with upvotes := x.upvotes + (-1), downvotes := x.downvotes + 1 } else x)
          from rfl]
        rw [lookupPost_map s _ _
          (fun x => by by_cases h : (x.id == pid) = true <;> simp [h]), hlp]
        simp [hpid]
      · intro q hq
        rw [show bumpCounters s.posts pid (-1) 1 = s.posts.map (fun x =>
            if x.id == pid then { x with upvotes := x.upvotes + (-1), downvotes := x.downvotes + 1 } else x)
          from rfl]
        exact lookupPost_frame _
          (fun x => by by_cases h : (x.id == pid) = true <;> simp [h])
          (fun x hx => by simp [hx]) _ hq
  · intro s pid a now ex p s' ha hlp hlv happ
    have hpid : p.id = pid := lookupPost_id hlp
    by_cases hexv : ex.vote = 1
    · have key : applyVote s pid a 0 now = .ok
          { s with votes := s.votes.filter (fun w => !(w.id == voteIdOf pid a))
                   posts := bumpCounters s.posts pid (-1) 0 } := by
        simp [applyVote, ha, hlp, hlv, hexv]
      rw [key] at happ
      injection happ with hs'
      subst hs'
      refine ⟨?_, rfl, ?_, ?_⟩
      · unfold lookupVote
        exact find?_filter_not _ _
      · rw [show bumpCounters s.posts pid (-1) 0 = s.posts.map (fun x =>
            if x.id == pid then { x with upvotes := x.upvotes + (-1), downvotes := x.downvotes + 0 } else x)
          from rfl]
        rw [lookupPost_map s _ _
          (fun x => by by_cases h : (x.id == pid) = true <;> simp [h]), hlp]
        simp [hpid, hexv]
      · intro q hq
        rw [show bumpCounters s.posts pid (-1) 0 = s.posts.map (fun x =>
            if x.id == pid then { x with upvotes := x.upvotes + (-1), downvotes := x.downvotes + 0 } else x)
          from rfl]
        exact lookupPost_frame _
          (fun x => by by_cases h : (x.id == pid) = true <;> simp [h])
          (fun x hx => by simp [hx]) _ hq
    · have key : applyVote s pid a 0 now = .ok
          { s with votes := s.votes.filter (fun w => !(w.id == voteIdOf pid a))
                   posts := bumpCounters s.posts pid 0 (-1) } := by
        simp [applyVote, ha, hlp, hlv, hexv]
      rw [key] at happ
      injection happ with hs'
      subst hs'
      refine ⟨?_, rfl, ?_, ?_⟩
      · unfold lookupVote
        exact find?_filter_not _ _
      · rw [show bumpCounters s.posts pid 0 (-1) = s.posts.map (fun x =>
            if x.id == pid then { x with upvotes := x.upvotes + 0, downvotes := x.downvotes + (-1) } else x)
          from rfl]
        rw [lookupPost_map s _ _
          (fun x => by by_cases h : (x.id == pid) = true <;> simp [h]), hlp]
        simp [hpid, hexv]
      · intro q hq
        rw [show bumpCounters s.posts pid 0 (-1) = s.posts.map (fun x =>
            if x.id == pid then { x with upvotes := x.upvotes + 0, downvotes := x.downvotes + (-1) } else x)
          from rfl]
        exact lookupPost_frame _
          (fun x => by by_cases h : (x.id == pid) = true <;> simp [h])
          (fun x hx => by simp [hx]) _ hq
  · intro s pid a now p ha hlp hlv
    simp [applyVote, ha, hlp, hlv]

/-- Witness for `applyVote_table` at the C5 scenario: carol's flip from +1 to
-1 on the root post. -/
theorem applyVote_table_witness :
    lookupVote c5s3 (voteIdOf "r1_a" "carol") = some
      { id := "r1_a_carol", post_id := "r1_a", agent_id := "carol", vote := -1, created_at := 2 }
  ∧ c5s3.votes.length = c5s2.votes.length
  ∧ lookupPost c5s3 "r1_a" = some
      { id := "r1_a", submolt_id := some "decisions", agent_id := some "alice"
        parent_id := none, forked_from := none, title := none, content := "hello"
        post_type := "trace", status := "open", tags := "[]"
        upvotes := 1 + (if (-1 : Int) = 1 then 1 else -1)
        downvotes := 0 + (if (-1 : Int) = 1 then -1 else 1)
        created_at := 1, updated_at := 1 } := by
  have h := applyVote_table.2.1 c5s2 "r1_a" "carol" (-1) 3
    { id := "r1_a_carol", post_id := "r1_a", agent_id := "carol", vote := 1, created_at := 2 }
    { id := "r1_a", submolt_id := some "decisions", agent_id := some "alice"
      parent_id := none, forked_from := none, title := none, content := "hello"
      post_type := "trace", status := "open", tags := "[]"
      upvotes := 1, downvotes := 0, created_at := 1, updated_at := 1 }
    c5s3 (by decide) (by decide) (by decide) (by decide) (Or.inr rfl) rfl
  exact ⟨h.1, h.2.1, h.2.2.1⟩

/-! ## Reachability invariant -/

theorem und_split (x1 : List Char) : ∀ (x2 r1 r2 : List Char),
    x1.count '_' = 0 → x2.count '_' = 0 →
    x1 ++ '_' :: r1 = x2 ++ '_' :: r2 → x1 = x2 ∧ r1 = r2 := by
  induction x1 with
  | nil =>
    intro x2 r1 r2 h1 h2 h
    cases x2 with
    | nil => simpa using h
    | cons c cs =>
      simp only [List.nil_append, List.cons_append, List.cons.injEq] at h
      rw [← h.1] at h2
      simp [List.count_cons] at h2
  | cons c cs ih =>
    intro x2 r1 r2 h1 h2 h
    cases x2 with
    | nil =>
      simp only [List.nil_append, List.cons_append, List.cons.injEq] at h
      rw [h.1] at h1
      simp [List.count_cons] at h1
    | cons d ds =>
      simp only [List.cons_append, List.cons.injEq] at h
      obtain ⟨rfl, h⟩ := h
      simp only [List.count_cons] at h1 h2
      have h1' : cs.count '_' = 0 := by omega
      have h2' : ds.count '_' = 0 := by omega
      obtain ⟨rfl, rfl⟩ := ih ds r1 r2 h1' h2' h
      exact ⟨rfl, rfl⟩

theorem count_one_decomp (l : List Char) (h : l.count '_' = 1) :
    ∃ u v, l = u ++ '_' :: v ∧ u.count '_' = 0 ∧ v.count '_' = 0 := by
  induction l with
  | nil => simp at h
  | cons c cs ih =>
    by_cases hc : c = '_'
    · subst hc
      simp only [List.count_cons_self] at h
      have hcs : cs.count '_' = 0 := by omega
      exact ⟨[], cs, rfl, rfl, hcs⟩
    · have hne : ¬((c == '_') = true) := by simp [hc]
      simp only [List.count_cons, if_neg hne] at h
      have h' : cs.count '_' = 1 := by simpa using h
      obtain ⟨u, v, rfl, hu, hv⟩ := ih h'
      refine ⟨c :: u, v, rfl, ?_, hv⟩
      simp [List.count_cons, hu, hc]

theorem string_data_append (a b : String) : (a ++ b).data = a.data ++ b.data := rfl

theorem voteIdOf_inj {p1 a1 p2 a2 : String} (h1 : goodId p1 = true) (h2 : goodId p2 = true)
    (h : voteIdOf p1 a1 = voteIdOf p2 a2) : p1 = p2 ∧ a1 = a2 := by
  unfold goodId at h1 h2
  simp only [beq_iff_eq] at h1 h2
  obtain ⟨u1, v1, hd1, hu1, hv1⟩ := count_one_decomp _ h1
  obtain ⟨u2, v2, hd2, hu2, hv2⟩ := count_one_decomp _ h2
  have hdata : p1.data ++ '_' :: a1.data = p2.data ++ '_' :: a2.data := by
    have := congrArg String.data h
    simpa [voteIdOf, string_data_append] using this
  rw [hd1, hd2] at hdata
  rw [List.append_assoc, List.append_assoc] at hdata
  simp only [List.cons_append] at hdata
  obtain ⟨hu, hrest⟩ := und_split u1 u2 _ _ hu1 hu2 hdata
  obtain ⟨hv, ha⟩ := und_split v1 v2 _ _ hv1 hv2 hrest
  subst hu hv
  constructor
  · have hd : p1.data = p2.data := by rw [hd1, hd2]
    cases p1
    cases p2
    exact congrArg String.mk (by simpa using hd)
  · cases a1
    cases a2
    exact congrArg String.mk (by simpa using ha)

theorem map_id_of {α : Type} (f : α → α) (l : List α) (h : ∀ w ∈ l, f w = w) :
    l.map f = l := by
  induction l with
  | nil => rfl
  | cons y ys ih =>
    rw [List.map_cons, h y (by simp), ih (fun w hw => h w (by simp [hw]))]

theorem filter_id_of {α : Type} (q : α → Bool) (l : List α) (h : ∀ w ∈ l, q w = true) :
    l.filter q = l := by
  induction l with
  | nil => rfl
  | cons y ys ih =>
    rw [List.filter_cons, if_pos (h y (by simp)), ih (fun w hw => h w (by simp [hw]))]

theorem cntV_cons (y : Vote) (ys : List Vote) (q : String) (x : Int) :
    cntV (y :: ys) q x = (if y.post_id = q ∧ y.vote = x then 1 else 0) + cntV ys q x := by
  unfold cntV
  by_cases h1 : y.post_id = q <;> by_cases h2 : y.vote = x <;>
    simp [List.filter_cons, h1, h2, Nat.add_comm]

theorem cntV_append (l : List Vote) (w : Vote) (pid : String) (x : Int) :
    cntV (l ++ [w]) pid x
      = cntV l pid x + (if w.post_id = pid ∧ w.vote = x then 1 else 0) := by
  unfold cntV
  rw [List.filter_append]
  by_cases h1 : w.post_id = pid <;> by_cases h2 : w.vote = x <;>
    simp [List.filter_cons, h1, h2]

theorem cntV_erase {l : List Vote} {r : Vote} {vid : String}
    (hnd : (l.map Vote.id).Nodup) (hr : r ∈ l) (hrid : r.id = vid)
    (q : String) (x : Int) :
    cntV l q x
      = cntV (l.filter (fun w => !(w.id == vid))) q x
        + (if r.post_id = q ∧ r.vote = x then 1 else 0) := by
  induction l with
  | nil => cases hr
  | cons y ys ih =>
    simp only [List.map_cons, List.nodup_cons] at hnd
    rcases List.mem_cons.mp hr with rfl | hr'
    · rw [List.filter_cons, if_neg (by simp [hrid])]
      rw [filter_id_of _ ys (fun w hw => by
        have : w.id ≠ r.id := fun he => hnd.1 (he ▸ List.mem_map_of_mem Vote.id hw)
        simp [hrid ▸ this])]
      rw [cntV_cons]
      exact Nat.add_comm _ _
    · rw [List.filter_cons, if_pos (by
        have : y.id ≠ r.id := fun he => hnd.1 (he ▸ List.mem_map_of_mem Vote.id hr')
        simp [hrid ▸ this])]
      rw [cntV_cons, cntV_cons, ih hnd.2 hr']
      omega

theorem cntV_update {l : List Vote} {r : Vote} {vid : String}
    (hnd : (l.map Vote.id).Nodup) (hr : r ∈ l) (hrid : r.id = vid)
    (f : Vote → Vote) (hfid : ∀ w, ¬((w.id == vid) = true) → f w = w)
    (hfr : (f r).post_id = r.post_id) (q : String) (x : Int) :
    cntV (l.map f) q x + (if r.post_id = q ∧ r.vote = x then 1 else 0)
      = cntV l q x + (if r.post_id = q ∧ (f r).vote = x then 1 else 0) := by
  induction l with
  | nil => cases hr
  | cons y ys ih =>
    simp only [List.map_cons, List.nodup_cons] at hnd
    rcases List.mem_cons.mp hr with rfl | hr'
    · rw [List.map_cons]
      rw [map_id_of f ys (fun w hw => hfid w (by
        have : w.id ≠ r.id := fun he => hnd.1 (he ▸ List.mem_map_of_mem Vote.id hw)
        simp [hrid ▸ this]))]
      rw [cntV_cons, cntV_cons, hfr]
      omega
    · rw [List.map_cons]
      rw [hfid y (by
        have : y.id ≠ r.id := fun he => hnd.1 (he ▸ List.mem_map_of_mem Vote.id hr')
        simp [hrid ▸ this])]
      rw [cntV_cons, cntV_cons]
      have hih := ih hnd.2 hr'
      omega

theorem lookupPost_mem {s : State} {pid : String} {p : Post}
    (h : lookupPost s pid = some p) : p ∈ s.posts := by
  unfold lookupPost at h
  exact List.mem_of_find?_eq_some h

theorem lookupVote_mem {s : State} {vid : String} {w : Vote}
    (h : lookupVote s vid = some w) : w ∈ s.votes := by
  unfold lookupVote at h
  exact List.mem_of_find?_eq_some h

theorem autoRegister_fields (s : State) (a : String) :
    (autoRegister s a).posts = s.posts ∧ (autoRegister s a).votes = s.votes
      ∧ (autoRegister s a).threads = s.threads ∧ (autoRegister s a).mentions = s.mentions
      ∧ (autoRegister s a).subscriptions = s.subscriptions
      ∧ (autoRegister s a).notifications = s.notifications := by
  unfold autoRegister
  split <;> exact ⟨rfl, rfl, rfl, rfl, rfl, rfl⟩

/-- Transport of the invariant to a state with the same core tables. -/
theorem Inv_triv {s s' : State} (hInv : Inv s) (hp : s'.posts = s.posts)
    (hv : s'.votes = s.votes) (ht : s'.threads = s.threads) : Inv s' := by
  refine ⟨?_, ?_, ?_, ?_, ?_, ?_, ?_, ?_⟩ <;> simp only [hp, hv, ht]
  · exact hInv.postsNodup
  · exact hInv.postsGood
  · exact hInv.votesNodup
  · exact hInv.votesShape
  · exact hInv.votesCount
  · exact hInv.threadsRoot
  · exact hInv.threadsRootNodup
  · exact hInv.rootsThread

/-- Transport of the invariant through an id, counter, parent and fork
preserving map of posts and a root-preserving map of threads. -/
theorem Inv_maps {s s' : State} (hInv : Inv s) (f : Post → Post)
    (hfid : ∀ x, (f x).id = x.id) (hfup : ∀ x, (f x).upvotes = x.upvotes)
    (hfdn : ∀ x, (f x).downvotes = x.downvotes)
    (hfpar : ∀ x, (f x).parent_id = x.parent_id)
    (hffk : ∀ x, (f x).forked_from = x.forked_from)
    (g : Thread → Thread) (hgroot : ∀ t, (g t).root_post_id = t.root_post_id)
    (hp : s'.posts = s.posts.map f) (hv : s'.votes = s.votes)
    (ht : s'.threads = s.threads.map g) : Inv s' := by
  refine ⟨?_, ?_, ?_, ?_, ?_, ?_, ?_, ?_⟩
  · rw [hp, List.map_map]
    have he : (Post.id ∘ f) = Post.id := funext hfid
    rw [he]
    exact hInv.postsNodup
  · rw [hp]
    intro p hpm
    obtain ⟨x, hx, rfl⟩ := List.mem_map.mp hpm
    rw [hfid]
    exact hInv.postsGood x hx
  · rw [hv]
    exact hInv.votesNodup
  · rw [hv, hp]
    intro v hvm
    obtain ⟨h1, h2, ⟨q, hq, hq2⟩⟩ := hInv.votesShape v hvm
    exact ⟨h1, h2, f q, List.mem_map_of_mem f hq, by rw [hfid]; exact hq2⟩
  · rw [hv, hp]
    intro p hpm
    obtain ⟨x, hx, rfl⟩ := List.mem_map.mp hpm
    rw [hfid, hfup, hfdn]
    exact hInv.votesCount x hx
  · rw [ht, hp]
    intro t htm
    obtain ⟨u, hu, rfl⟩ := List.mem_map.mp htm
    obtain ⟨q, hq, hq2⟩ := hInv.threadsRoot u hu
    exact ⟨f q, List.mem_map_of_mem f hq, by rw [hfid, hgroot]; exact hq2⟩
  · rw [ht, List.map_map]
    have he : (Thread.root_post_id ∘ g) = Thread.root_post_id := funext hgroot
    rw [he]
    exact hInv.threadsRootNodup
  · rw [ht, hp]
    intro p hpm hpar hfk
    obtain ⟨x, hx, rfl⟩ := List.mem_map.mp hpm
    rw [hfpar] at hpar
    rw [hffk] at hfk
    obtain ⟨t, htm, ht2⟩ := hInv.rootsThread x hx hpar hfk
    exact ⟨g t, List.mem_map_of_mem g htm, by rw [hgroot, hfid]; exact ht2⟩

/-- A vote row's post id matches the queried post, by `goodId` injectivity. -/
theorem vote_post_eq {s : State} (hInv : Inv s) {pid a : String} {p : Post} {ex : Vote}
    (hp : lookupPost s pid = some p)
    (hex : lookupVote s (voteIdOf pid a) = some ex) :
    ex.post_id = pid ∧ ex.agent_id = a := by
  have hpid : p.id = pid := lookupPost_id hp
  have hgp : goodId pid = true := by
    rw [← hpid]
    exact hInv.postsGood p (lookupPost_mem hp)
  obtain ⟨_, hexid, q, hq, hq2⟩ := hInv.votesShape ex (lookupVote_mem hex)
  have hgq : goodId ex.post_id = true := by
    rw [← hq2]
    exact hInv.postsGood q hq
  have heq : voteIdOf ex.post_id ex.agent_id = voteIdOf pid a := by
    rw [← hexid]
    exact lookupVote_id hex
  obtain ⟨h1, h2⟩ := voteIdOf_inj hgq hgp heq
  exact ⟨h1, h2⟩

/-- Invariant preservation for a fresh vote insert plus the matching counter bump. -/
theorem Inv_vote_insert {s s' : State} (hInv : Inv s) {pid a : String} {p : Post}
    (hp : lookupPost s pid = some p)
    (hnone : lookupVote s (voteIdOf pid a) = none)
    (v du dd : Int) (now : Nat)
    (hv : (v = 1 ∧ du = 1 ∧ dd = 0) ∨ (v = -1 ∧ du = 0 ∧ dd = 1))
    (hvotes : s'.votes = s.votes ++
      [{ id := voteIdOf pid a, post_id := pid, agent_id := a, vote := v, created_at := now }])
    (hposts : s'.posts = bumpCounters s.posts pid du dd)
    (ht : s'.threads = s.threads) : Inv s' := by
  have hfv : ∀ w ∈ s.votes, ¬((w.id == voteIdOf pid a) = true) := by
    intro w hw
    unfold lookupVote at hnone
    exact List.find?_eq_none.mp hnone w hw
  have hbump : s'.posts = s.posts.map (fun x =>
      if x.id == pid then { x with upvotes := x.upvotes + du, downvotes := x.downvotes + dd }
      else x) := hposts
  refine ⟨?_, ?_, ?_, ?_, ?_, ?_, ?_, ?_⟩
  · rw [hbump, List.map_map]
    have he : (Post.id ∘ fun x =>
        if x.id == pid then { x with upvotes := x.upvotes + du, downvotes := x.downvotes + dd }
        else x) = Post.id := by
      funext x
      by_cases h : (x.id == pid) = true <;> simp [Function.comp, h]
    rw [he]
    exact hInv.postsNodup
  · rw [hbump]
    intro q hq
    obtain ⟨x, hx, rfl⟩ := List.mem_map.mp hq
    have : (if (x.id == pid) = true then
        { x with upvotes := x.upvotes + du, downvotes := x.downvotes + dd } else x).id = x.id := by
      by_cases h : (x.id == pid) = true <;> simp [h]
    rw [this]
    exact hInv.postsGood x hx
  · rw [hvotes, List.map_append]
    rw [List.nodup_append]
    refine ⟨hInv.votesNodup, by simp, ?_⟩
    intro y hy
    simp only [List.map_cons, List.map_nil, List.mem_singleton]
    obtain ⟨w, hw, rfl⟩ := List.mem_map.mp hy
    intro he
    exact hfv w hw (by simp [he])
  · rw [hvotes]
    intro w hw
    rcases List.mem_append.mp hw with hw | hw
    · obtain ⟨h1, h2, q, hq, hq2⟩ := hInv.votesShape w hw
      refine ⟨h1, h2, ?_⟩
      rw [hbump]
      refine ⟨_, List.mem_map_of_mem _ hq, ?_⟩
      by_cases h : (q.id == pid) = true
      · rw [if_pos h]
        simpa using hq2
      · rw [if_neg h]
        exact hq2
    · simp only [List.mem_singleton] at hw
      subst hw
      refine ⟨by rcases hv with ⟨rfl, _, _⟩ | ⟨rfl, _, _⟩ <;> simp, rfl, ?_⟩
      rw [hbump]
      refine ⟨_, List.mem_map_of_mem _ (lookupPost_mem hp), ?_⟩
      have hpid : p.id = pid := lookupPost_id hp
      have h : (p.id == pid) = true := by simp [hpid]
      rw [if_pos h]
      simpa using hpid
  · rw [hbump, hvotes]
    intro q hq
    obtain ⟨x, hx, rfl⟩ := List.mem_map.mp hq
    obtain ⟨hcu, hcd⟩ := hInv.votesCount x hx
    by_cases h : (x.id == pid) = true
    · have hxid : x.id = pid := by simpa using h
      rw [if_pos h]
      constructor
      · show x.upvotes + du = (cntV (s.votes ++ [_]) x.id 1 : Int)
        rw [cntV_append]
        rcases hv with ⟨rfl, rfl, rfl⟩ | ⟨rfl, rfl, rfl⟩ <;>
          simp [hxid, hcu]
      · show x.downvotes + dd = (cntV (s.votes ++ [_]) x.id (-1) : Int)
        rw [cntV_append]
        rcases hv with ⟨rfl, rfl, rfl⟩ | ⟨rfl, rfl, rfl⟩ <;>
          simp [hxid, hcd]
    · have hxid : ¬(x.id = pid) := by simpa using h
      have hne : ¬(pid = x.id) := fun he => hxid he.symm
      rw [if_neg h]
      constructor
      · show x.upvotes = (cntV (s.votes ++ [_]) x.id 1 : Int)
        rw [cntV_append]
        simp [hne, hcu]
      · show x.downvotes = (cntV (s.votes ++ [_]) x.id (-1) : Int)
        rw [cntV_append]
        simp [hne, hcd]
  · rw [ht, hbump]
    intro t htm
    obtain ⟨q, hq, hq2⟩ := hInv.threadsRoot t htm
    refine ⟨_, List.mem_map_of_mem _ hq, ?_⟩
    by_cases h : (q.id == pid) = true
    · rw [if_pos h]
      simpa using hq2
    · rw [if_neg h]
      exact hq2
  · rw [ht]
    exact hInv.threadsRootNodup
  · rw [ht, hbump]
    intro q hq hpar hfk
    obtain ⟨x, hx, rfl⟩ := List.mem_map.mp hq
    by_cases h : (x.id == pid) = true
    · rw [if_pos h] at hpar hfk ⊢
      simp only at hpar hfk
      obtain ⟨t, htm, ht2⟩ := hInv.rootsThread x hx hpar hfk
      exact ⟨t, htm, by simpa using ht2⟩
    · rw [if_neg h] at hpar hfk ⊢
      exact hInv.rootsThread x hx hpar hfk

/-- Invariant preservation for deleting a vote row plus the matching counter
decrement. -/
theorem Inv_vote_delete {s s' : State} (hInv : Inv s) {pid a : String} {p : Post} {ex : Vote}
    (hp : lookupPost s pid = some p)
    (hex : lookupVote s (voteIdOf pid a) = some ex)
    (du dd : Int)
    (hv : (ex.vote = 1 ∧ du = -1 ∧ dd = 0) ∨ (ex.vote = -1 ∧ du = 0 ∧ dd = -1))
    (hvotes : s'.votes = s.votes.filter (fun w => !(w.id == voteIdOf pid a)))
    (hposts : s'.posts = bumpCounters s.posts pid du dd)
    (ht : s'.threads = s.threads) : Inv s' := by
  have hbump : s'.posts = s.posts.map (fun x =>
      if x.id == pid then { x with upvotes := x.upvotes + du, downvotes := x.downvotes + dd }
      else x) := hposts
  have hexmem : ex ∈ s.votes := lookupVote_mem hex
  have hexid : ex.id = voteIdOf pid a := lookupVote_id hex
  have hpostid : ex.post_id = pid := (vote_post_eq hInv hp hex).1
  have herase := fun (q : String) (x : Int) =>
    cntV_erase hInv.votesNodup hexmem hexid q x
  refine ⟨?_, ?_, ?_, ?_, ?_, ?_, ?_, ?_⟩
  · rw [hbump, List.map_map]
    have he : (Post.id ∘ fun x =>
        if x.id == pid then { x with upvotes := x.upvotes + du, downvotes := x.downvotes + dd }
        else x) = Post.id := by
      funext x
      by_cases h : (x.id == pid) = true <;> simp [Function.comp, h]
    rw [he]
    exact hInv.postsNodup
  · rw [hbump]
    intro q hq
    obtain ⟨x, hx, rfl⟩ := List.mem_map.mp hq
    have hxe : (if (x.id == pid) = true then
        { x with upvotes := x.upvotes + du, downvotes := x.downvotes + dd } else x).id = x.id := by
      by_cases h : (x.id == pid) = true <;> simp [h]
    rw [hxe]
    exact hInv.postsGood x hx
  · rw [hvotes]
    refine List.Nodup.sublist ?_ hInv.votesNodup
    exact (List.filter_sublist _).map _
  · rw [hvotes]
    intro w hw
    have hw' : w ∈ s.votes := List.mem_of_mem_filter hw
    obtain ⟨h1, h2, q, hq, hq2⟩ := hInv.votesShape w hw'
    refine ⟨h1, h2, ?_⟩
    rw [hbump]
    refine ⟨_, List.mem_map_of_mem _ hq, ?_⟩
    by_cases h : (q.id == pid) = true
    · rw [if_pos h]
      simpa using hq2
    · rw [if_neg h]
      exact hq2
  · rw [hbump, hvotes]
    intro q hq
    obtain ⟨x, hx, rfl⟩ := List.mem_map.mp hq
    obtain ⟨hcu, hcd⟩ := hInv.votesCount x hx
    by_cases h : (x.id == pid) = true
    · have hxid : x.id = pid := by simpa using h
      rw [if_pos h]
      have hu := herase x.id 1
      have hd := herase x.id (-1)
      constructor
      · show x.upvotes + du = (cntV (s.votes.filter _) x.id 1 : Int)
        rcases hv with ⟨hev, rfl, rfl⟩ | ⟨hev, rfl, rfl⟩ <;>
          simp [hxid, hpostid, hev, hcu, hu] at hu hcu ⊢ <;> omega
      · show x.downvotes + dd = (cntV (s.votes.filter _) x.id (-1) : Int)
        rcases hv with ⟨hev, rfl, rfl⟩ | ⟨hev, rfl, rfl⟩ <;>
          simp [hxid, hpostid, hev, hcd, hd] at hd hcd ⊢ <;> omega
    · have hxid : ¬(x.id = pid) := by simpa using h
      have hne : ¬(ex.post_id = x.id) := by
        rw [hpostid]
        exact fun he => hxid he.symm
      rw [if_neg h]
      have hu := herase x.id 1
      have hd := herase x.id (-1)
      rw [if_neg (by intro hc; exact hne hc.1)] at hu hd
      rw [Nat.add_zero] at hu hd
      constructor
      · show x.upvotes = (cntV (s.votes.filter _) x.id 1 : Int)
        rw [hcu, hu]
      · show x.downvotes = (cntV (s.votes.filter _) x.id (-1) : Int)
        rw [hcd, hd]
  · rw [ht, hbump]
    intro t htm
    obtain ⟨q, hq, hq2⟩ := hInv.threadsRoot t htm
    refine ⟨_, List.mem_map_of_mem _ hq, ?_⟩
    by_cases h : (q.id == pid) = true
    · rw [if_pos h]
      simpa using hq2
    · rw [if_neg h]
      exact hq2
  · rw [ht]
    exact hInv.threadsRootNodup
  · rw [ht, hbump]
    intro q hq hpar hfk
    obtain ⟨x, hx, rfl⟩ := List.mem_map.mp hq
    by_cases h : (x.id == pid) = true
    · rw [if_pos h] at hpar hfk ⊢
      simp only at hpar hfk
      obtain ⟨t, htm, ht2⟩ := hInv.rootsThread x hx hpar hfk
      exact ⟨t, htm, by simpa using ht2⟩
    · rw [if_neg h] at hpar hfk ⊢
      exact hInv.rootsThread x hx hpar hfk

/-- Invariant preservation for an in-place vote flip plus the two counter moves. -/
theorem Inv_vote_update {s s' : State} (hInv : Inv s) {pid a : String} {p : Post} {ex : Vote}
    (hp : lookupPost s pid = some p)
    (hex : lookupVote s (voteIdOf pid a) = some ex)
    (f : Vote → Vote)
    (hfid : ∀ w, ¬((w.id == voteIdOf pid a) = true) → f w = w)
    (hkeep : ∀ w, (f w).id = w.id ∧ (f w).post_id = w.post_id ∧ (f w).agent_id = w.agent_id)
    (v du dd : Int)
    (hfv : ∀ w, ((w.id == voteIdOf pid a) = true) → (f w).vote = v)
    (hexv : ex.vote = -v)
    (hv : (v = 1 ∧ du = 1 ∧ dd = -1) ∨ (v = -1 ∧ du = -1 ∧ dd = 1))
    (hvotes : s'.votes = s.votes.map f)
    (hposts : s'.posts = bumpCounters s.posts pid du dd)
    (ht : s'.threads = s.threads) : Inv s' := by
  have hbump : s'.posts = s.posts.map (fun x =>
      if x.id == pid then { x with upvotes := x.upvotes + du, downvotes := x.downvotes + dd }
      else x) := hposts
  have hexmem : ex ∈ s.votes := lookupVote_mem hex
  have hexid : ex.id = voteIdOf pid a := lookupVote_id hex
  have hpostid : ex.post_id = pid := (vote_post_eq hInv hp hex).1
  have hfex : (f ex).vote = v := hfv ex (by simp [hexid])
  have hupd := fun (q : String) (x : Int) =>
    cntV_update hInv.votesNodup hexmem hexid f hfid ((hkeep ex).2.1) q x
  refine ⟨?_, ?_, ?_, ?_, ?_, ?_, ?_, ?_⟩
  · rw [hbump, List.map_map]
    have he : (Post.id ∘ fun x =>
        if x.id == pid then { x with upvotes := x.upvotes + du, downvotes := x.downvotes + dd }
        else x) = Post.id := by
      funext x
      by_cases h : (x.id == pid) = true <;> simp [Function.comp, h]
    rw [he]
    exact hInv.postsNodup
  · rw [hbump]
    intro q hq
    obtain ⟨x, hx, rfl⟩ := List.mem_map.mp hq
    have hxe : (if (x.id == pid) = true then
        { x with upvotes := x.upvotes + du, downvotes := x.downvotes + dd } else x).id = x.id := by
      by_cases h : (x.id == pid) = true <;> simp [h]
    rw [hxe]
    exact hInv.postsGood x hx
  · rw [hvotes, List.map_map]
    have he : (Vote.id ∘ f) = Vote.id := funext (fun w => (hkeep w).1)
    rw [he]
    exact hInv.votesNodup
  · rw [hvotes]
    intro w hw
    obtain ⟨w0, hw0, rfl⟩ := List.mem_map.mp hw
    obtain ⟨h1, h2, q, hq, hq2⟩ := hInv.votesShape w0 hw0
    refine ⟨?_, ?_, ?_⟩
    · by_cases h : (w0.id == voteIdOf pid a) = true
      · rw [hfv w0 h]
        rcases hv with ⟨rfl, _, _⟩ | ⟨rfl, _, _⟩ <;> simp
      · rw [hfid w0 h]
        exact h1
    · rw [(hkeep w0).1, (hkeep w0).2.1, (hkeep w0).2.2]
      exact h2
    · rw [hbump, (hkeep w0).2.1]
      refine ⟨_, List.mem_map_of_mem _ hq, ?_⟩
      by_cases h : (q.id == pid) = true
      · rw [if_pos h]
        simpa using hq2
      · rw [if_neg h]
        exact hq2
  · rw [hbump, hvotes]
    intro q hq
    obtain ⟨x, hx, rfl⟩ := List.mem_map.mp hq
    obtain ⟨hcu, hcd⟩ := hInv.votesCount x hx
    obtain ⟨hev1, _⟩ := hInv.votesShape ex hexmem
    by_cases h : (x.id == pid) = true
    · have hxid : x.id = pid := by simpa using h
      rw [if_pos h]
      have hu := hupd x.id 1
      have hd := hupd x.id (-1)
      rw [hfex] at hu hd
      constructor
      · show x.upvotes + du = (cntV (s.votes.map f) x.id 1 : Int)
        rcases hv with ⟨rfl, rfl, rfl⟩ | ⟨rfl, rfl, rfl⟩ <;>
          rw [hexv] at hu <;>
          simp [hxid, hpostid] at hu hcu ⊢ <;> omega
      · show x.downvotes + dd = (cntV (s.votes.map f) x.id (-1) : Int)
        rcases hv with ⟨rfl, rfl, rfl⟩ | ⟨rfl, rfl, rfl⟩ <;>
          rw [hexv] at hd <;>
          simp [hxid, hpostid] at hd hcd ⊢ <;> omega
    · have hxid : ¬(x.id = pid) := by simpa using h
      have hne : ¬(ex.post_id = x.id) := by
        rw [hpostid]
        exact fun he => hxid he.symm
      rw [if_neg h]
      have hu := hupd x.id 1
      have hd := hupd x.id (-1)
      rw [if_neg (by intro hc; exact hne hc.1), if_neg (by intro hc; exact hne hc.1)] at hu
      rw [if_neg (by intro hc; exact hne hc.1), if_neg (by intro hc; exact hne hc.1)] at hd
      rw [Nat.add_zero, Nat.add_zero] at hu hd
      constructor
      · show x.upvotes = (cntV (s.votes.map f) x.id 1 : Int)
        rw [hcu, hu]
      · show x.downvotes = (cntV (s.votes.map f) x.id (-1) : Int)
        rw [hcd, hd]
  · rw [ht, hbump]
    intro t htm
    obtain ⟨q, hq, hq2⟩ := hInv.threadsRoot t htm
    refine ⟨_, List.mem_map_of_mem _ hq, ?_⟩
    by_cases h : (q.id == pid) = true
    · rw [if_pos h]
      simpa using hq2
    · rw [if_neg h]
      exact hq2
  · rw [ht]
    exact hInv.threadsRootNodup
  · rw [ht, hbump]
    intro q hq hpar hfk
    obtain ⟨x, hx, rfl⟩ := List.mem_map.mp hq
    by_cases h : (x.id == pid) = true
    · rw [if_pos h] at hpar hfk ⊢
      simp only at hpar hfk
      obtain ⟨t, htm, ht2⟩ := hInv.rootsThread x hx hpar hfk
      exact ⟨t, htm, by simpa using ht2⟩
    · rw [if_neg h] at hpar hfk ⊢
      exact hInv.rootsThread x hx hpar hfk

/-- No vote row references a post id absent from the posts table. -/
theorem cntV_fresh {s : State} (hInv : Inv s) {newId : String}
    (hfresh : freshPostId s newId) (x : Int) : cntV s.votes newId x = 0 := by
  unfold cntV
  rw [List.filter_eq_nil_iff.mpr]
  · rfl
  · intro w hw
    obtain ⟨_, _, q, hq, hq2⟩ := hInv.votesShape w hw
    have : w.post_id ≠ newId := by
      rw [← hq2]
      exact hfresh q hq
    simp [this]

/-- Shared transport of the post-table invariant pieces for appending a fresh
post with zero counters. -/
theorem Inv_append_posts {s : State} (hInv : Inv s) {newPost : Post}
    (hfresh : freshPostId s newPost.id) (hgood : goodId newPost.id = true)
    (hup : newPost.upvotes = 0) (hdn : newPost.downvotes = 0) :
    ((s.posts ++ [newPost]).map Post.id).Nodup
      ∧ (∀ p ∈ s.posts ++ [newPost], goodId p.id = true)
      ∧ (∀ p ∈ s.posts ++ [newPost],
          p.upvotes = (cntV s.votes p.id 1 : Int)
            ∧ p.downvotes = (cntV s.votes p.id (-1) : Int)) := by
  refine ⟨?_, ?_, ?_⟩
  · rw [List.map_append, List.nodup_append]
    refine ⟨hInv.postsNodup, by simp, ?_⟩
    intro y hy
    simp only [List.map_cons, List.map_nil, List.mem_singleton]
    obtain ⟨q, hq, rfl⟩ := List.mem_map.mp hy
    exact fun he => hfresh q hq he
  · intro p hp
    rcases List.mem_append.mp hp with hp | hp
    · exact hInv.postsGood p hp
    · simp only [List.mem_singleton] at hp
      subst hp
      exact hgood
  · intro p hp
    rcases List.mem_append.mp hp with hp | hp
    · exact hInv.votesCount p hp
    · simp only [List.mem_singleton] at hp
      subst hp
      rw [hup, hdn, cntV_fresh hInv hfresh, cntV_fresh hInv hfresh]
      exact ⟨rfl, rfl⟩

/-- Invariant preservation for creating a root post together with its thread. -/
theorem Inv_append_root {s s' : State} (hInv : Inv s) {newPost : Post} {thr : Thread}
    (hfresh : freshPostId s newPost.id) (hgood : goodId newPost.id = true)
    (hup : newPost.upvotes = 0) (hdn : newPost.downvotes = 0)
    (hroot : thr.root_post_id = newPost.id)
    (hp : s'.posts = s.posts ++ [newPost]) (hv : s'.votes = s.votes)
    (ht : s'.threads = s.threads ++ [thr]) : Inv s' := by
  obtain ⟨h1, h2, h3⟩ := Inv_append_posts hInv hfresh hgood hup hdn
  refine ⟨?_, ?_, ?_, ?_, ?_, ?_, ?_, ?_⟩
  · rw [hp]
    exact h1
  · rw [hp]
    exact h2
  · rw [hv]
    exact hInv.votesNodup
  · rw [hv, hp]
    intro w hw
    obtain ⟨ha, hb, q, hq, hq2⟩ := hInv.votesShape w hw
    exact ⟨ha, hb, q, List.mem_append.mpr (Or.inl hq), hq2⟩
  · rw [hv, hp]
    exact h3
  · rw [ht, hp]
    intro t htm
    rcases List.mem_append.mp htm with htm | htm
    · obtain ⟨q, hq, hq2⟩ := hInv.threadsRoot t htm
      exact ⟨q, List.mem_append.mpr (Or.inl hq), hq2⟩
    · simp only [List.mem_singleton] at htm
      subst htm
      exact ⟨newPost, List.mem_append.mpr (Or.inr (by simp)), hroot.symm⟩
  · rw [ht, List.map_append, List.nodup_append]
    refine ⟨hInv.threadsRootNodup, by simp, ?_⟩
    intro y hy
    simp only [List.map_cons, List.map_nil, List.mem_singleton]
    obtain ⟨u, hu, rfl⟩ := List.mem_map.mp hy
    obtain ⟨q, hq, hq2⟩ := hInv.threadsRoot u hu
    rw [hroot, ← hq2]
    exact fun he => hfresh q hq he
  · rw [ht, hp]
    intro p hpm hpar hfk
    rcases List.mem_append.mp hpm with hpm | hpm
    · obtain ⟨t, htm, ht2⟩ := hInv.rootsThread p hpm hpar hfk
      exact ⟨t, List.mem_append.mpr (Or.inl htm), ht2⟩
    · simp only [List.mem_singleton] at hpm
      subst hpm
      exact ⟨thr, List.mem_append.mpr (Or.inr (by simp)), hroot⟩

/-- Invariant preservation for appending a non-root post (a reply, with a
parent, or a fork, with a fork origin), with threads mapped root-preservingly. -/
theorem Inv_append_nonroot {s s' : State} (hInv : Inv s) {newPost : Post}
    (hfresh : freshPostId s newPost.id) (hgood : goodId newPost.id = true)
    (hup : newPost.upvotes = 0) (hdn : newPost.downvotes = 0)
    (hnr : ¬(newPost.parent_id = none) ∨ ¬(newPost.forked_from = none))
    (hp : s'.posts = s.posts ++ [newPost]) (hv : s'.votes = s.votes)
    (hth : ∃ g : Thread → Thread, s'.threads = s.threads.map g
      ∧ ∀ t, (g t).root_post_id = t.root_post_id) : Inv s' := by
  obtain ⟨g, ht, hgroot⟩ := hth
  obtain ⟨h1, h2, h3⟩ := Inv_append_posts hInv hfresh hgood hup hdn
  refine ⟨?_, ?_, ?_, ?_, ?_, ?_, ?_, ?_⟩
  · rw [hp]
    exact h1
  · rw [hp]
    exact h2
  · rw [hv]
    exact hInv.votesNodup
  · rw [hv, hp]
    intro w hw
    obtain ⟨ha, hb, q, hq, hq2⟩ := hInv.votesShape w hw
    exact ⟨ha, hb, q, List.mem_append.mpr (Or.inl hq), hq2⟩
  · rw [hv, hp]
    exact h3
  · rw [ht, hp]
    intro t htm
    obtain ⟨u, hu, rfl⟩ := List.mem_map.mp htm
    obtain ⟨q, hq, hq2⟩ := hInv.threadsRoot u hu
    exact ⟨q, List.mem_append.mpr (Or.inl hq), by rw [hgroot]; exact hq2⟩
  · rw [ht, List.map_map]
    have he : (Thread.root_post_id ∘ g) = Thread.root_post_id := funext hgroot
    rw [he]
    exact hInv.threadsRootNodup
  · rw [ht, hp]
    intro p hpm hpar hfk
    rcases List.mem_append.mp hpm with hpm | hpm
    · obtain ⟨t, htm, ht2⟩ := hInv.rootsThread p hpm hpar hfk
      exact ⟨g t, List.mem_map_of_mem g htm, by rw [hgroot]; exact ht2⟩
    · simp only [List.mem_singleton] at hpm
      subst hpm
      rcases hnr with hnr | hnr
      · exact absurd hpar hnr
      · exact absurd hfk hnr

/-- `updateThreadOnReply` only remaps threads, preserving each root. -/
theorem updateThreadOnReply_shape (s : State) (r a : String) (now : Nat) :
    (updateThreadOnReply s r a now).posts = s.posts
      ∧ (updateThreadOnReply s r a now).votes = s.votes
      ∧ (updateThreadOnReply s r a now).mentions = s.mentions
      ∧ (updateThreadOnReply s r a now).notifications = s.notifications
      ∧ (updateThreadOnReply s r a now).agents = s.agents
      ∧ (updateThreadOnReply s r a now).subscriptions = s.subscriptions
      ∧ ∃ g : Thread → Thread,
          (updateThreadOnReply s r a now).threads = s.threads.map g
            ∧ ∀ t, (g t).root_post_id = t.root_post_id := by
  unfold updateThreadOnReply
  split
  · exact ⟨rfl, rfl, rfl, rfl, rfl, rfl, id, by simp, fun t => rfl⟩
  next t0 heq =>
    split
    · refine ⟨rfl, rfl, rfl, rfl, rfl, rfl,
        (fun u => if u.id == t0.id then
          { u with reply_count := u.reply_count + 1, last_activity := now } else u),
        rfl, ?_⟩
      intro t
      by_cases h : (t.id == t0.id) = true <;> simp [h]
    · refine ⟨rfl, rfl, rfl, rfl, rfl, rfl,
        (fun u => if u.id == t0.id then
          { u with participant_count := u.participant_count + 1 } else u) ∘
        (fun u => if u.id == t0.id then
          { u with reply_count := u.reply_count + 1, last_activity := now } else u),
        ?_, ?_⟩
      · show List.map _ (List.map _ s.threads) = _
        rw [List.map_map]
      · intro t
        simp only [Function.comp]
        by_cases h : (t.id == t0.id) = true <;> simp [h]

theorem isNone_false_some {α : Type} {o : Option α} (h : ¬(o.isNone = true)) :
    ∃ x, o = some x := by
  cases o with
  | none => simp at h
  | some x => exact ⟨x, rfl⟩

theorem applyVote_inv {s s' : State} {pid a : String} {v : Int} {now : Nat}
    (hInv : Inv s) (h : applyVote s pid a v now = .ok s') : Inv s' := by
  unfold applyVote at h
  split at h
  · cases h
  split at h
  · cases h
  split at h
  · cases h
  next hvv hnp =>
  obtain ⟨p, hp⟩ := isNone_false_some hnp
  have hvv' : v = 1 ∨ v = -1 ∨ v = 0 := by
    have h1 : ¬v = 1 → ¬v = -1 → v = 0 := by simpa using hvv
    by_cases ha : v = 1
    · exact Or.inl ha
    by_cases hb : v = -1
    · exact Or.inr (Or.inl hb)
    · exact Or.inr (Or.inr (h1 ha hb))
  simp only [] at h
  cases hlv : lookupVote s (voteIdOf pid a) with
  | some ex =>
    rw [hlv] at h
    simp only [] at h
    have hexsh := hInv.votesShape ex (lookupVote_mem hlv)
    split at h
    next hv0 =>
      have hv0' : v = 0 := by simpa using hv0
      split at h
      next hev =>
        injection h with h
        subst h
        exact Inv_vote_delete hInv hp hlv (-1) 0
          (Or.inl ⟨by simpa using hev, rfl, rfl⟩) rfl rfl rfl
      next hev =>
        have hev' : ex.vote = -1 := by
          rcases hexsh.1 with h1 | h1
          · exact absurd (by simp [h1]) hev
          · exact h1
        injection h with h
        subst h
        exact Inv_vote_delete hInv hp hlv 0 (-1)
          (Or.inr ⟨hev', rfl, rfl⟩) rfl rfl rfl
    next hv0 =>
      have hvne : ¬(v = 0) := by simpa using hv0
      have hv1 : v = 1 ∨ v = -1 := by
        rcases hvv' with h1 | h1 | h1
        · exact Or.inl h1
        · exact Or.inr h1
        · exact absurd h1 hvne
      split at h
      next hsame =>
        injection h with h
        subst h
        exact hInv
      next hsame =>
        have hexv : ex.vote = -v := by
          rcases hexsh.1 with h1 | h1 <;> rcases hv1 with h2 | h2 <;> subst h2
          · exact absurd (by simp [h1]) hsame
          · rw [h1]; decide
          · rw [h1]
          · exact absurd (by simp [h1]) hsame
        split at h
        next hvone =>
          have hvone' : v = 1 := by simpa using hvone
          subst hvone'
          injection h with h
          subst h
          exact Inv_vote_update hInv hp hlv _
            (fun w hw => by rw [if_neg hw])
            (fun w => by by_cases hw : (w.id == voteIdOf pid a) = true <;> simp [hw])
            1 1 (-1)
            (fun w hw => by rw [if_pos hw])
            hexv (Or.inl ⟨rfl, rfl, rfl⟩) rfl rfl rfl
        next hvone =>
          have hvone' : v = -1 := by
            rcases hv1 with h1 | h1
            · exact absurd (by simp [h1]) hvone
            · exact h1
          subst hvone'
          injection h with h
          subst h
          exact Inv_vote_update hInv hp hlv _
            (fun w hw => by rw [if_neg hw])
            (fun w => by by_cases hw : (w.id == voteIdOf pid a) = true <;> simp [hw])
            (-1) (-1) 1
            (fun w hw => by rw [if_pos hw])
            hexv (Or.inr ⟨rfl, rfl, rfl⟩) rfl rfl rfl
  | none =>
    rw [hlv] at h
    simp only [] at h
    split at h
    next hv0 =>
      injection h with h
      subst h
      exact hInv
    next hv0 =>
      have hvne : ¬(v = 0) := by simpa using hv0
      have hv1 : v = 1 ∨ v = -1 := by
        rcases hvv' with h1 | h1 | h1
        · exact Or.inl h1
        · exact Or.inr h1
        · exact absurd h1 hvne
      split at h
      next hvone =>
        have hvone' : v = 1 := by simpa using hvone
        subst hvone'
        injection h with h
        subst h
        exact Inv_vote_insert hInv hp hlv 1 1 0 now (Or.inl ⟨rfl, rfl, rfl⟩) rfl rfl rfl
      next hvone =>
        have hvone' : v = -1 := by
          rcases hv1 with h1 | h1
          · exact absurd (by simp [h1]) hvone
          · exact h1
        subst hvone'
        injection h with h
        subst h
        exact Inv_vote_insert hInv hp hlv (-1) 0 1 now (Or.inr ⟨rfl, rfl, rfl⟩) rfl rfl rfl

theorem updateThreadOnReply_threads (s : State) (r a : String) (now : Nat) :
    (updateThreadOnReply s r a now).threads = s.threads.map (threadMapOnReply s r a now) := by
  unfold updateThreadOnReply threadMapOnReply
  cases heq : s.threads.find? (fun t => t.root_post_id == r) with
  | none => simp
  | some t =>
    by_cases hex : existingParticipant s t.root_post_id a = true <;>
      simp [hex, List.map_map]

theorem threadMapOnReply_root (s : State) (r a : String) (now : Nat) (t : Thread) :
    (threadMapOnReply s r a now t).root_post_id = t.root_post_id := by
  unfold threadMapOnReply
  cases heq : s.threads.find? (fun u => u.root_post_id == r) with
  | none => rfl
  | some t0 =>
    by_cases hex : existingParticipant s t0.root_post_id a = true <;>
      simp only [hex, Bool.false_eq_true, if_true, if_false, Function.comp] <;>
      by_cases h1 : (t.id == t0.id) = true <;> simp [h1]

theorem updateThreadOnReply_posts (s : State) (r a : String) (now : Nat) :
    (updateThreadOnReply s r a now).posts = s.posts :=
  (updateThreadOnReply_shape s r a now).1

theorem updateThreadOnReply_votes (s : State) (r a : String) (now : Nat) :
    (updateThreadOnReply s r a now).votes = s.votes :=
  (updateThreadOnReply_shape s r a now).2.1

/-- The bulk mention-ack fold marks exactly the listed mentions of the path
agent responded and changes nothing else. -/
theorem bulkAck_fold (a : String) (ids : List String) (s : State) :
    (ids.foldl (fun acc mid =>
        { acc with mentions := acc.mentions.map (fun m =>
            if m.id == mid && m.mentioned_agent_id == a then { m with responded := true }
            else m) }) s)
      = { s with mentions := s.mentions.map (fun m =>
          if m.mentioned_agent_id = a ∧ m.id ∈ ids then { m with responded := true } else m) } := by
  induction ids generalizing s with
  | nil => simp
  | cons mid rest ih =>
    rw [List.foldl_cons, ih]
    simp only [List.map_map]
    have hfun : ((fun m : Mention =>
          if m.mentioned_agent_id = a ∧ m.id ∈ rest then { m with responded := true } else m) ∘
        (fun m : Mention =>
          if m.id == mid && m.mentioned_agent_id == a then { m with responded := true } else m))
        = (fun m : Mention =>
          if m.mentioned_agent_id = a ∧ m.id ∈ mid :: rest then { m with responded := true }
          else m) := by
      funext m
      by_cases h1 : m.mentioned_agent_id = a <;> by_cases h2 : m.id = mid <;>
        by_cases h3 : m.id ∈ rest <;>
        simp [Function.comp, h1, h2, h3]
    rw [hfun]

theorem registerAgent_inv {s s' : State} {id name : String} (hInv : Inv s)
    (h : registerAgent s id name = .ok s') : Inv s' := by
  unfold registerAgent at h
  split at h
  · cases h
  split at h <;> (injection h with h; subst h; exact Inv_triv hInv rfl rfl rfl)

theorem ackMention_inv {s s' : State} {acting : Option String} {pathAgent mentionId : String}
    {respPost : Option String} (hInv : Inv s)
    (h : ackMention s acting pathAgent mentionId respPost = .ok s') : Inv s' := by
  unfold ackMention at h
  split at h
  · cases h
  split at h
  · cases h
  split at h <;> (injection h with h; subst h; exact Inv_triv hInv rfl rfl rfl)

theorem bulkAckAll_inv {s s' : State} {acting : Option String} {pathAgent : String}
    (hInv : Inv s) (h : bulkAckAll s acting pathAgent = .ok s') : Inv s' := by
  unfold bulkAckAll at h
  split at h
  · cases h
  injection h with h
  subst h
  exact Inv_triv hInv rfl rfl rfl

theorem bulkAckIds_inv {s s' : State} {acting : Option String} {pathAgent : String}
    {ids : List String} (hInv : Inv s)
    (h : bulkAckIds s acting pathAgent ids = .ok s') : Inv s' := by
  unfold bulkAckIds at h
  split at h
  · cases h
  injection h with h
  subst h
  rw [bulkAck_fold]
  exact Inv_triv hInv rfl rfl rfl

theorem subscribeToPost_inv {s s' : State} {acting : Option String} {postId newId : String}
    (hInv : Inv s) (h : subscribeToPost s acting postId newId = .ok s') : Inv s' := by
  unfold subscribeToPost at h
  split at h
  · cases h
  split at h
  · cases h
  split at h <;> (injection h with h; subst h; exact Inv_triv hInv rfl rfl rfl)

theorem unsubscribeFromPost_inv {s s' : State} {acting : Option String} {postId : String}
    (hInv : Inv s) (h : unsubscribeFromPost s acting postId = .ok s') : Inv s' := by
  unfold unsubscribeFromPost at h
  split at h
  · cases h
  injection h with h
  subst h
  exact Inv_triv hInv rfl rfl rfl

theorem subscribeToSubmolt_inv {s s' : State} {acting : Option String} {submoltId newId : String}
    (hInv : Inv s) (h : subscribeToSubmolt s acting submoltId newId = .ok s') : Inv s' := by
  unfold subscribeToSubmolt at h
  split at h
  · cases h
  split at h
  · cases h
  split at h <;> (injection h with h; subst h; exact Inv_triv hInv rfl rfl rfl)

theorem unsubscribeFromSubmolt_inv {s s' : State} {acting : Option String} {submoltId : String}
    (hInv : Inv s) (h : unsubscribeFromSubmolt s acting submoltId = .ok s') : Inv s' := by
  unfold unsubscribeFromSubmolt at h
  split at h
  · cases h
  injection h with h
  subst h
  exact Inv_triv hInv rfl rfl rfl

theorem markNotificationsRead_inv {s s' : State} {pathAgent : String}
    {ids : Option (List String)} (hInv : Inv s)
    (h : markNotificationsRead s pathAgent ids = .ok s') : Inv s' := by
  unfold markNotificationsRead at h
  split at h <;> (injection h with h; subst h)
  · rw [markRead_fold]
    exact Inv_triv hInv rfl rfl rfl
  · exact Inv_triv hInv rfl rfl rfl

theorem deleteReadNotifications_inv {s s' : State} {pathAgent : String} (hInv : Inv s)
    (h : deleteReadNotifications s pathAgent = .ok s') : Inv s' := by
  unfold deleteReadNotifications at h
  injection h with h
  subst h
  exact Inv_triv hInv rfl rfl rfl

theorem addWatchlist_inv {s s' : State} {acting : Option String}
    {pathAgent targetType targetId : String} {priority : Option Int} {starred : Bool}
    {notes : Option String} {newId : String} {now : Nat} (hInv : Inv s)
    (h : addWatchlist s acting pathAgent targetType targetId priority starred notes newId now
      = .ok s') : Inv s' := by
  unfold addWatchlist at h
  simp only [] at h
  repeat' split at h
  all_goals cases h
  all_goals exact Inv_triv hInv rfl rfl rfl

theorem deleteWatchlist_inv {s s' : State} {acting : Option String}
    {pathAgent itemId : String} (hInv : Inv s)
    (h : deleteWatchlist s acting pathAgent itemId = .ok s') : Inv s' := by
  unfold deleteWatchlist at h
  repeat' split at h
  all_goals cases h
  all_goals exact Inv_triv hInv rfl rfl rfl

theorem patchWatchlist_inv {s s' : State} {acting : Option String}
    {pathAgent itemId : String} {priority : Option Int} {starred : Option Bool}
    {notes : Option String} (hInv : Inv s)
    (h : patchWatchlist s acting pathAgent itemId priority starred notes = .ok s') : Inv s' := by
  unfold patchWatchlist at h
  repeat' split at h
  all_goals cases h
  all_goals exact Inv_triv hInv rfl rfl rfl

theorem lockThread_inv {s s' : State} {postId : String} {now : Nat} (hInv : Inv s)
    (h : lockThread s postId now = .ok s') : Inv s' := by
  unfold lockThread at h
  split at h
  · cases h
  split at h
  · cases h
  injection h with h
  subst h
  refine Inv_maps hInv _ ?_ ?_ ?_ ?_ ?_ _ ?_ rfl rfl rfl <;> intro x <;>
    by_cases hx : x.id == postId <;>
    first
    | (by_cases hx2 : x.root_post_id == postId <;> simp [hx2])
    | simp [hx]

theorem resolveThread_inv {s s' : State} {postId : String} {now : Nat} (hInv : Inv s)
    (h : resolveThread s postId now = .ok s') : Inv s' := by
  unfold resolveThread at h
  split at h
  · cases h
  split at h
  · cases h
  injection h with h
  subst h
  refine Inv_maps hInv _ ?_ ?_ ?_ ?_ ?_ id (fun t => rfl) rfl rfl (by simp) <;> intro x <;>
    by_cases hx : x.id == postId <;> simp [hx]

theorem reopenThread_inv {s s' : State} {postId : String} {now : Nat} (hInv : Inv s)
    (h : reopenThread s postId now = .ok s') : Inv s' := by
  unfold reopenThread at h
  split at h
  · cases h
  injection h with h
  subst h
  refine Inv_maps hInv _ ?_ ?_ ?_ ?_ ?_ _ ?_ rfl rfl rfl <;> intro x <;>
    by_cases hx : x.id == postId <;>
    first
    | (by_cases hx2 : x.root_post_id == postId <;> simp [hx2])
    | simp [hx]

theorem pinThread_inv {s s' : State} {tid : String} (hInv : Inv s)
    (h : pinThread s tid = .ok s') : Inv s' := by
  unfold pinThread at h
  split at h
  · cases h
  next t ht =>
  injection h with h
  subst h
  refine Inv_maps hInv id ?_ ?_ ?_ ?_ ?_ _ ?_ (by simp) rfl rfl <;> intro x <;>
    by_cases hx : x.id == t.id <;> simp [hx]

theorem unpinThread_inv {s s' : State} {tid : String} (hInv : Inv s)
    (h : unpinThread s tid = .ok s') : Inv s' := by
  unfold unpinThread at h
  split at h
  · cases h
  next t ht =>
  injection h with h
  subst h
  refine Inv_maps hInv id ?_ ?_ ?_ ?_ ?_ _ ?_ (by simp) rfl rfl <;> intro x <;>
    by_cases hx : x.id == t.id <;> simp [hx]

theorem upvotePost_inv {s s' : State} {acting : Option String} {postId : String} {now : Nat}
    (hInv : Inv s) (h : upvotePost s acting postId now = .ok s') : Inv s' := by
  unfold upvotePost at h
  split at h
  · cases h
  next me =>
  split at h
  · cases h
  next hnp =>
  obtain ⟨p, hp⟩ := isNone_false_some hnp
  simp only [] at h
  cases hlv : lookupVote s (voteIdOf postId me) with
  | some ex =>
    rw [hlv] at h
    simp only [] at h
    split at h
    next hev =>
      injection h with h
      subst h
      exact hInv
    next hev =>
      have hexsh := hInv.votesShape ex (lookupVote_mem hlv)
      have hexv : ex.vote = -1 := by
        rcases hexsh.1 with h1 | h1
        · exact absurd (by simp [h1]) hev
        · exact h1
      injection h with h
      subst h
      exact Inv_vote_update hInv hp hlv _
        (fun w hw => by rw [if_neg hw])
        (fun w => by by_cases hw : (w.id == voteIdOf postId me) = true <;> simp [hw])
        1 1 (-1)
        (fun w hw => by rw [if_pos hw])
        hexv (Or.inl ⟨rfl, rfl, rfl⟩) rfl rfl rfl
  | none =>
    rw [hlv] at h
    simp only [] at h
    injection h with h
    subst h
    exact Inv_vote_insert hInv hp hlv 1 1 0 now (Or.inl ⟨rfl, rfl, rfl⟩) rfl rfl rfl

theorem downvotePost_inv {s s' : State} {acting : Option String} {postId : String} {now : Nat}
    (hInv : Inv s) (h : downvotePost s acting postId now = .ok s') : Inv s' := by
  unfold downvotePost at h
  split at h
  · cases h
  next me =>
  split at h
  · cases h
  next hnp =>
  obtain ⟨p, hp⟩ := isNone_false_some hnp
  simp only [] at h
  cases hlv : lookupVote s (voteIdOf postId me) with
  | some ex =>
    rw [hlv] at h
    simp only [] at h
    split at h
    next hev =>
      injection h with h
      subst h
      exact hInv
    next hev =>
      have hexsh := hInv.votesShape ex (lookupVote_mem hlv)
      have hexv : ex.vote = 1 := by
        rcases hexsh.1 with h1 | h1
        · exact h1
        · exact absurd (by simp [h1]) hev
      injection h with h
      subst h
      exact Inv_vote_update hInv hp hlv _
        (fun w hw => by rw [if_neg hw])
        (fun w => by by_cases hw : (w.id == voteIdOf postId me) = true <;> simp [hw])
        (-1) (-1) 1
        (fun w hw => by rw [if_pos hw])
        (by rw [hexv]; rfl) (Or.inr ⟨rfl, rfl, rfl⟩) rfl rfl rfl
  | none =>
    rw [hlv] at h
    simp only [] at h
    injection h with h
    subst h
    exact Inv_vote_insert hInv hp hlv (-1) 0 1 now (Or.inr ⟨rfl, rfl, rfl⟩) rfl rfl rfl

theorem removeVote_inv {s s' : State} {acting : Option String} {postId : String}
    (hInv : Inv s) (h : removeVote s acting postId = .ok s') : Inv s' := by
  unfold removeVote at h
  split at h
  · cases h
  next me =>
  split at h
  · cases h
  next hnp =>
  obtain ⟨p, hp⟩ := isNone_false_some hnp
  simp only [] at h
  cases hlv : lookupVote s (voteIdOf postId me) with
  | none =>
    rw [hlv] at h
    simp only [] at h
    injection h with h
    subst h
    exact hInv
  | some ex =>
    rw [hlv] at h
    simp only [] at h
    have hexsh := hInv.votesShape ex (lookupVote_mem hlv)
    split at h
    next hev =>
      injection h with h
      subst h
      exact Inv_vote_delete hInv hp hlv (-1) 0
        (Or.inl ⟨by simpa using hev, rfl, rfl⟩) rfl rfl rfl
    next hev =>
      have hev' : ex.vote = -1 := by
        rcases hexsh.1 with h1 | h1
        · exact absurd (by simp [h1]) hev
        · exact h1
      injection h with h
      subst h
      exact Inv_vote_delete hInv hp hlv 0 (-1)
        (Or.inr ⟨hev', rfl, rfl⟩) rfl rfl rfl

theorem createPost_inv {s s' : State} {agentId : String} {submoltId title : Option String}
    {content : String} {postType : Option String} {tags newId : String}
    {gen : Nat → String} {now : Nat}
    (hInv : Inv s) (hfresh : freshPostId s newId) (hgood : goodId newId = true)
    (h : createPost s agentId submoltId title content postType tags newId gen now = .ok s') :
    Inv s' := by
  unfold createPost at h
  split at h
  · cases h
  split at h
  · cases h
  simp only [] at h
  have hA := autoRegister_fields s agentId
  rw [hA.1, hA.2.1, hA.2.2.1] at h
  injection h with h
  subst h
  exact Inv_append_root hInv hfresh hgood rfl rfl rfl rfl rfl rfl

theorem forkPost_inv {s s' : State} {origId agentId : String} {title content : Option String}
    {newId : String} {now : Nat}
    (hInv : Inv s) (hfresh : freshPostId s newId) (hgood : goodId newId = true)
    (h : forkPost s origId agentId title content newId now = .ok s') : Inv s' := by
  unfold forkPost at h
  split at h
  · cases h
  split at h
  · cases h
  next original horig =>
  simp only [] at h
  have hA := autoRegister_fields s agentId
  rw [hA.1, hA.2.1, hA.2.2.1] at h
  injection h with h
  subst h
  exact Inv_append_nonroot hInv hfresh hgood rfl rfl (Or.inr (by simp)) rfl rfl
    ⟨id, by simp, fun t => rfl⟩

theorem createReply_inv {s s' : State} {targetId agentId content newId : String}
    {gen : Nat → String} {now : Nat}
    (hInv : Inv s) (hfresh : freshPostId s newId) (hgood : goodId newId = true)
    (h : createReply s targetId agentId content newId gen now = .ok s') : Inv s' := by
  unfold createReply at h
  split at h
  · cases h
  split at h
  · cases h
  split at h
  · cases h
  next parent hpar =>
  simp only [] at h
  split at h
  · cases h
  next hlock =>
  have hA := autoRegister_fields s agentId
  injection h with h
  subst h
  refine @Inv_append_nonroot s _ hInv ?newPost ?hfr ?hg ?hup ?hdn ?hnr ?hp ?hv ?hth
  case newPost =>
    exact { id := newId, submolt_id := parent.submolt_id, agent_id := some agentId
            parent_id := some targetId, forked_from := none, title := none
            content := content, post_type := "reply", status := "open", tags := "[]"
            upvotes := 0, downvotes := 0, created_at := now, updated_at := now }
  case hp =>
    simp only [updateThreadOnReply_posts, hA.1]
  case hv =>
    simp only [updateThreadOnReply_votes, hA.2.1]
  case hth =>
    simp only [updateThreadOnReply_threads, hA.2.2.1]
    exact ⟨_, rfl, fun t => threadMapOnReply_root _ _ _ _ t⟩
  case hfr => exact hfresh
  case hg => exact hgood
  case hup => rfl
  case hdn => rfl
  case hnr => exact Or.inl (by simp)

/-- The fresh database satisfies the invariant (all core tables empty). -/
theorem Inv_init : Inv State.init := by
  constructor <;> simp [State.init]

/-- Every successful operation preserves the invariant. -/
theorem step_inv {s s' : State} (hInv : Inv s) (hstep : Step s s') : Inv s' := by
  cases hstep with
  | register id name h => exact registerAgent_inv hInv h
  | post agentId submoltId title content postType tags newId gen now hfresh hgood h =>
    exact createPost_inv hInv hfresh hgood h
  | reply targetId agentId content newId gen now hfresh hgood h =>
    exact createReply_inv hInv hfresh hgood h
  | fork origId agentId title content newId now hfresh hgood h =>
    exact forkPost_inv hInv hfresh hgood h
  | vote postId agentId v now h => exact applyVote_inv hInv h
  | upvote acting postId now h => exact upvotePost_inv hInv h
  | downvote acting postId now h => exact downvotePost_inv hInv h
  | unvote acting postId h => exact removeVote_inv hInv h
  | lock postId now h => exact lockThread_inv hInv h
  | resolve postId now h => exact resolveThread_inv hInv h
  | reopen postId now h => exact reopenThread_inv hInv h
  | pin tid h => exact pinThread_inv hInv h
  | unpin tid h => exact unpinThread_inv hInv h
  | ack acting pathAgent mentionId respPost h => exact ackMention_inv hInv h
  | ackAll acting pathAgent h => exact bulkAckAll_inv hInv h
  | ackIds acting pathAgent ids h => exact bulkAckIds_inv hInv h
  | subPost acting postId newId h => exact subscribeToPost_inv hInv h
  | unsubPost acting postId h => exact unsubscribeFromPost_inv hInv h
  | subSubmolt acting submoltId newId h => exact subscribeToSubmolt_inv hInv h
  | unsubSubmolt acting submoltId h => exact unsubscribeFromSubmolt_inv hInv h
  | notifRead pathAgent ids h => exact markNotificationsRead_inv hInv h
  | notifPurge pathAgent h => exact deleteReadNotifications_inv hInv h
  | watchAdd acting pathAgent targetType targetId priority starred notes newId now h =>
    exact addWatchlist_inv hInv h
  | watchDel acting pathAgent itemId h => exact deleteWatchlist_inv hInv h
  | watchPatch acting pathAgent itemId priority starred notes h =>
    exact patchWatchlist_inv hInv h

/-- Every reachable state satisfies the invariant. -/
theorem inv_of_reachable {s : State} (h : Reachable s) : Inv s := by
  unfold Reachable at h
  induction h with
  | refl => exact Inv_init
  | tail hab hbc ih => exact step_inv ih hbc

/-! ## Claims C4, C6 and C8 -/

theorem lookupPost_congr {s1 s2 : State} (h : s1.posts = s2.posts) (q : String) :
    lookupPost s1 q = lookupPost s2 q := by
  unfold lookupPost
  rw [h]

theorem ancestorsFrom_congr {s1 s2 : State} (h : s1.posts = s2.posts) :
    ∀ (n : Nat) (q : String), ancestorsFrom s1 n q = ancestorsFrom s2 n q := by
  intro n
  induction n with
  | zero => intro q; rfl
  | succ k ih =>
    intro q
    unfold ancestorsFrom
    rw [lookupPost_congr h]
    cases lookupPost s2 q with
    | none => rfl
    | some p =>
      simp only []
      cases p.parent_id with
      | none => rfl
      | some r => simp [ih]

theorem mentionAncestorChain_congr {s1 s2 : State} (h : s1.posts = s2.posts) (q : String) :
    mentionAncestorChain s1 q = mentionAncestorChain s2 q := by
  unfold mentionAncestorChain
  rw [lookupPost_congr h]
  cases lookupPost s2 q with
  | none => rfl
  | some p =>
    have hl : s1.posts.length = s2.posts.length := by rw [h]
    rw [hl, ancestorsFrom_congr h]

/-- The ancestor chain reads only the posts table: canonical form. -/
theorem mentionAncestorChain_posts (s : State) (q : String) :
    mentionAncestorChain s q
      = mentionAncestorChain ⟨[], s.posts, [], [], [], [], [], [], []⟩ q :=
  @mentionAncestorChain_congr s ⟨[], s.posts, [], [], [], [], [], [], []⟩ rfl q

theorem updateThreadOnReply_mentions (s : State) (r a : String) (now : Nat) :
    (updateThreadOnReply s r a now).mentions = s.mentions :=
  (updateThreadOnReply_shape s r a now).2.2.1

/-- First-match responded monotonicity under appending rows. -/
theorem respondedAt_append {l : List Mention} (l2 : List Mention) {p a : String}
    (h : respondedAt l p a = true) : respondedAt (l ++ l2) p a = true := by
  unfold respondedAt at h ⊢
  cases hf : l.find? (fun m => m.post_id == p && m.mentioned_agent_id == a) with
  | none => rw [hf] at h; cases h
  | some m =>
    rw [hf] at h
    rw [List.find?_append, hf]
    exact h

/-- First-match responded monotonicity under a key-preserving, responded-monotone
row map. -/
theorem respondedAt_map {l : List Mention} {f : Mention → Mention}
    (hkey : ∀ m, (f m).post_id = m.post_id ∧ (f m).mentioned_agent_id = m.mentioned_agent_id)
    (hmono : ∀ m, m.responded = true → (f m).responded = true)
    {p a : String} (h : respondedAt l p a = true) : respondedAt (l.map f) p a = true := by
  unfold respondedAt at h ⊢
  rw [find?_map_pres f _ _ (fun m => by rw [(hkey m).1, (hkey m).2])]
  cases hf : l.find? (fun m => m.post_id == p && m.mentioned_agent_id == a) with
  | none => rw [hf] at h; cases h
  | some m =>
    rw [hf] at h
    exact hmono m h

/-- A fold whose steps only append to the first component appends overall. -/
theorem foldl_first_append {β γ : Type}
    (F : (List Mention × γ) → β → (List Mention × γ))
    (hF : ∀ a b, ∃ t, (F a b).1 = a.1 ++ t) :
    ∀ (l : List β) (acc : List Mention × γ), ∃ tail, (l.foldl F acc).1 = acc.1 ++ tail := by
  intro l
  induction l with
  | nil => intro acc; exact ⟨[], by simp⟩
  | cons b bs ih =>
    intro acc
    obtain ⟨t1, ht1⟩ := hF acc b
    obtain ⟨t2, ht2⟩ := ih (F acc b)
    exact ⟨t1 ++ t2, by rw [List.foldl_cons, ht2, ht1, List.append_assoc]⟩

/-- Mention extraction only appends mention rows. -/
theorem extract_appends (agents : List Agent) (gen : Nat → String) (now : Nat)
    (acc : List Mention × List Notification × Nat) (content postId mentioning : String) :
    ∃ tail, (extractAgentMentions agents gen now acc content postId mentioning).1
      = acc.1 ++ tail := by
  unfold extractAgentMentions
  apply foldl_first_append
  intro a t
  split
  · split
    · split
      · exact ⟨[], by simp⟩
      · exact ⟨_, rfl⟩
    · exact ⟨[], by simp⟩
  · exact ⟨[], by simp⟩

/-- A successful reply marks every mention of the replying agent recorded on
the target or any ancestor as responded, attaching the reply. -/
theorem createReply_marks {s s' : State} {targetId agentId content newId : String}
    {gen : Nat → String} {now : Nat}
    (h : createReply s targetId agentId content newId gen now = .ok s') :
    ∀ m ∈ s'.mentions, m.mentioned_agent_id = agentId →
      m.post_id ∈ mentionAncestorChain s' targetId →
      m.responded = true ∧ m.response_post_id = some newId := by
  unfold createReply at h
  split at h
  · cases h
  split at h
  · cases h
  split at h
  · cases h
  next parent hpar =>
  simp only [] at h
  split at h
  · cases h
  next hlock =>
  injection h with h
  subst h
  intro m hm hag hchain
  simp only [mentionAncestorChain_posts, updateThreadOnReply_posts] at hchain
  simp only [updateThreadOnReply_mentions] at hm
  unfold markMentionsAlongChain at hm
  simp only [mentionAncestorChain_posts] at hm
  obtain ⟨m0, hm0, rfl⟩ := List.mem_map.mp hm
  have hag0 : m0.mentioned_agent_id = agentId := by
    split at hag <;> simpa using hag
  have hchain0 := hchain
  split at hchain0
  all_goals simp only [] at hchain0
  all_goals split <;>
    first
    | exact ⟨rfl, rfl⟩
    | (next hc =>
        exact absurd (by simp [hag0, List.elem_eq_mem, hchain0]) hc)

/-- A responded mention key stays responded across one mention-extraction pass. -/
theorem respondedAt_extract {agents : List Agent} {gen : Nat → String} {now : Nat}
    {acc : List Mention × List Notification × Nat} {content postId mentioning : String}
    {p a : String} (h : respondedAt acc.1 p a = true) :
    respondedAt (extractAgentMentions agents gen now acc content postId mentioning).1
      p a = true := by
  obtain ⟨tail, ht⟩ := extract_appends agents gen now acc content postId mentioning
  rw [ht]
  exact respondedAt_append tail h

/-- No operation resets a responded mention key. -/
theorem step_mentions_mono {s s' : State} (hstep : Step s s') (p a : String)
    (hm : mentionRespondedAt s p a = true) : mentionRespondedAt s' p a = true := by
  unfold mentionRespondedAt at hm ⊢
  cases hstep with
  | register id name h =>
    unfold registerAgent at h
    repeat' split at h
    all_goals cases h
    all_goals exact hm
  | post agentId submoltId title content postType tags newId gen now hfresh hgood h =>
    unfold createPost at h
    split at h
    · cases h
    split at h
    · cases h
    simp only [] at h
    have hA := autoRegister_fields s agentId
    injection h with h
    subst h
    simp only []
    cases title with
    | none =>
      simp only []
      apply respondedAt_extract
      rw [hA.2.2.2.1]
      exact hm
    | some ttl =>
      simp only []
      apply respondedAt_extract
      apply respondedAt_extract
      rw [hA.2.2.2.1]
      exact hm
  | reply targetId agentId content newId gen now hfresh hgood h =>
    unfold createReply at h
    split at h
    · cases h
    split at h
    · cases h
    split at h
    · cases h
    next parent hpar =>
    simp only [] at h
    split at h
    · cases h
    next hlock =>
    have hA := autoRegister_fields s agentId
    injection h with h
    subst h
    simp only [updateThreadOnReply_mentions]
    unfold markMentionsAlongChain
    apply respondedAt_map
    · intro m
      split <;> exact ⟨rfl, rfl⟩
    · intro m hr
      split
      · rfl
      · exact hr
    · apply respondedAt_extract
      rw [hA.2.2.2.1]
      exact hm
  | fork origId agentId title content newId now hfresh hgood h =>
    unfold forkPost at h
    repeat' split at h
    all_goals cases h
    all_goals simp only [(autoRegister_fields s agentId).2.2.2.1]
    all_goals exact hm
  | vote postId agentId v now h =>
    unfold applyVote at h
    simp only [] at h
    repeat' split at h
    all_goals cases h
    all_goals exact hm
  | upvote acting postId now h =>
    unfold upvotePost at h
    simp only [] at h
    repeat' split at h
    all_goals cases h
    all_goals exact hm
  | downvote acting postId now h =>
    unfold downvotePost at h
    simp only [] at h
    repeat' split at h
    all_goals cases h
    all_goals exact hm
  | unvote acting postId h =>
    unfold removeVote at h
    simp only [] at h
    repeat' split at h
    all_goals cases h
    all_goals exact hm
  | lock postId now h =>
    unfold lockThread at h
    repeat' split at h
    all_goals cases h
    all_goals exact hm
  | resolve postId now h =>
    unfold resolveThread at h
    repeat' split at h
    all_goals cases h
    all_goals exact hm
  | reopen postId now h =>
    unfold reopenThread at h
    repeat' split at h
    all_goals cases h
    all_goals exact hm
  | pin tid h =>
    unfold pinThread at h
    repeat' split at h
    all_goals cases h
    all_goals exact hm
  | unpin tid h =>
    unfold unpinThread at h
    repeat' split at h
    all_goals cases h
    all_goals exact hm
  | ack acting pathAgent mentionId respPost h =>
    unfold ackMention at h
    repeat' split at h
    all_goals cases h
    · exact hm
    · apply respondedAt_map
      · intro m
        split <;> exact ⟨rfl, rfl⟩
      · intro m hr
        split
        · rfl
        · exact hr
      · exact hm
  | ackAll acting pathAgent h =>
    unfold bulkAckAll at h
    split at h
    · cases h
    injection h with h
    subst h
    apply respondedAt_map
    · intro m
      split <;> exact ⟨rfl, rfl⟩
    · intro m hr
      split
      · rfl
      · exact hr
    · exact hm
  | ackIds acting pathAgent ids h =>
    unfold bulkAckIds at h
    split at h
    · cases h
    injection h with h
    subst h
    rw [bulkAck_fold]
    apply respondedAt_map
    · intro m
      split <;> exact ⟨rfl, rfl⟩
    · intro m hr
      split
      · rfl
      · exact hr
    · exact hm
  | subPost acting postId newId h =>
    unfold subscribeToPost at h
    repeat' split at h
    all_goals cases h
    all_goals exact hm
  | unsubPost acting postId h =>
    unfold unsubscribeFromPost at h
    repeat' split at h
    all_goals cases h
    all_goals exact hm
  | subSubmolt acting submoltId newId h =>
    unfold subscribeToSubmolt at h
    repeat' split at h
    all_goals cases h
    all_goals exact hm
  | unsubSubmolt acting submoltId h =>
    unfold unsubscribeFromSubmolt at h
    repeat' split at h
    all_goals cases h
    all_goals exact hm
  | notifRead pathAgent ids h =>
    unfold markNotificationsRead at h
    split at h
    all_goals injection h with h
    all_goals subst h
    · rw [markRead_fold]
      exact hm
    · exact hm
  | notifPurge pathAgent h =>
    unfold deleteReadNotifications at h
    injection h with h
    subst h
    exact hm
  | watchAdd acting pathAgent targetType targetId priority starred notes newId now h =>
    unfold addWatchlist at h
    simp only [] at h
    repeat' split at h
    all_goals cases h
    all_goals exact hm
  | watchDel acting pathAgent itemId h =>
    unfold deleteWatchlist at h
    repeat' split at h
    all_goals cases h
    all_goals exact hm
  | watchPatch acting pathAgent itemId priority starred notes h =>
    unfold patchWatchlist at h
    repeat' split at h
    all_goals cases h
    all_goals exact hm

/-- The one-post trace `c5s1` is reachable. -/
theorem reach_c5s1 : Reachable c5s1 :=
  Relation.ReflTransGen.single
    (Step.post State.init c5s1 "alice" none none "hello" none "[]" "r1_a" g0 1
      (by unfold freshPostId; decide) (by decide) rfl)

/-- The post-plus-upvote trace `c5s2` is reachable. -/
theorem reach_c5s2 : Reachable c5s2 :=
  Relation.ReflTransGen.tail reach_c5s1 (Step.vote c5s1 c5s2 "r1_a" "carol" 1 2 rfl)

/-- The post-plus-fork trace `c6s2` is reachable. -/
theorem reach_c6s2 : Reachable c6s2 :=
  Relation.ReflTransGen.tail reach_c5s1
    (Step.fork c5s1 c6s2 "r1_a" "bob" none none "f1_a" 2 (by unfold freshPostId; decide)
      (by decide) rfl)

/-- Claim C4: at every reachable state every post's cached `upvotes` and
`downvotes` equal the counts of its vote rows with value `1` and `-1`, and a
voter has at most one vote row per post. -/
theorem vote_counter_integrity {s : State} (h : Reachable s) :
    (∀ p ∈ s.posts,
        p.upvotes = (cntV s.votes p.id 1 : Int)
          ∧ p.downvotes = (cntV s.votes p.id (-1) : Int))
      ∧ ∀ v ∈ s.votes, ∀ w ∈ s.votes,
          v.post_id = w.post_id → v.agent_id = w.agent_id → v = w := by
  have hInv := inv_of_reachable h
  refine ⟨hInv.votesCount, ?_⟩
  intro v hv w hw hpid haid
  have h1 := (hInv.votesShape v hv).2.1
  have h2 := (hInv.votesShape w hw).2.1
  have hid : v.id = w.id := by rw [h1, h2, hpid, haid]
  exact List.inj_on_of_nodup_map hInv.votesNodup hv hw hid

/-- Witness for C4 at the concrete reachable trace `c5s2`. -/
theorem vote_counter_integrity_witness :
    (∀ p ∈ c5s2.posts,
        p.upvotes = (cntV c5s2.votes p.id 1 : Int)
          ∧ p.downvotes = (cntV c5s2.votes p.id (-1) : Int))
      ∧ ∀ v ∈ c5s2.votes, ∀ w ∈ c5s2.votes,
          v.post_id = w.post_id → v.agent_id = w.agent_id → v = w :=
  vote_counter_integrity reach_c5s2

/-- Claim C6 (amended): at every reachable state, every post with no parent
and no fork origin has exactly one thread rooted at it; fork-created posts
have a null parent but no thread, as the counterexample shows. -/
theorem root_post_thread_unique {s : State} (h : Reachable s) :
    ∀ p ∈ s.posts, p.parent_id = none → p.forked_from = none →
      ∃ t ∈ s.threads, t.root_post_id = p.id
        ∧ ∀ u ∈ s.threads, u.root_post_id = p.id → u = t := by
  have hInv := inv_of_reachable h
  intro p hp hpar hfk
  obtain ⟨t, ht, hroot⟩ := hInv.rootsThread p hp hpar hfk
  refine ⟨t, ht, hroot, ?_⟩
  intro u hu huroot
  exact List.inj_on_of_nodup_map hInv.threadsRootNodup hu ht (by rw [huroot, hroot])

/-- Witness for C6 at the concrete reachable trace `c5s1`, instantiated at its
root post `r1_a`. -/
theorem root_post_thread_unique_witness :
    ∃ t ∈ c5s1.threads, t.root_post_id = "r1_a"
      ∧ ∀ u ∈ c5s1.threads, u.root_post_id = "r1_a" → u = t :=
  root_post_thread_unique reach_c5s1
    { id := "r1_a", submolt_id := some "decisions", agent_id := some "alice"
      parent_id := none, forked_from := none, title := none, content := "hello"
      post_type := "trace", status := "open", tags := "[]", upvotes := 0
      downvotes := 0, created_at := 1, updated_at := 1 }
    (by decide) rfl rfl

/-- Counterexample to C6 as stated: the reachable trace `c6s2` holds the
fork-created post `f1_a` with a null parent and no thread rooted at it. -/
theorem c6_counterexample :
    Reachable c6s2
      ∧ ∃ p ∈ c6s2.posts, p.parent_id = none
          ∧ ¬∃ t ∈ c6s2.threads, t.root_post_id = p.id :=
  ⟨reach_c6s2, by decide⟩

/-- Claim C8: a successful reply by an agent marks every mention obligation of
that agent on the target post or any of its ancestors as responded with the
reply attached, and no operation ever resets a responded mention key. -/
theorem reply_resolves_mentions :
    (∀ (s s' : State) (targetId agentId content newId : String)
        (gen : Nat → String) (now : Nat),
      createReply s targetId agentId content newId gen now = .ok s' →
      ∀ m ∈ s'.mentions, m.mentioned_agent_id = agentId →
        m.post_id ∈ mentionAncestorChain s' targetId →
        m.responded = true ∧ m.response_post_id = some newId)
    ∧ (∀ s s' : State, Step s s' → ∀ p a : String,
        mentionRespondedAt s p a = true → mentionRespondedAt s' p a = true) :=
  ⟨fun _ _ _ _ _ _ _ _ h => createReply_marks h,
   fun _ _ hstep p a hm => step_mentions_mono hstep p a hm⟩

/-- Witness for C8: `bob` replies to the root that mentioned him; the mention
is marked responded with the reply attached, and stays responded after a
further operation. -/
theorem reply_resolves_mentions_witness :
    (∀ m ∈ c8s2.mentions, m.mentioned_agent_id = "bob" →
        m.post_id ∈ mentionAncestorChain c8s2 "t1_a" →
        m.responded = true ∧ m.response_post_id = some "t2_a")
      ∧ mentionRespondedAt c8s3 "t1_a" "bob" = true :=
  ⟨reply_resolves_mentions.1 c8s1 c8s2 "t1_a" "bob" "on it" "t2_a" g0 2 rfl,
   reply_resolves_mentions.2 c8s2 c8s3 (Step.lock c8s2 c8s3 "t1_a" 3 rfl) "t1_a" "bob"
     (by decide)⟩

end LocalMolt
